import Mathlib

/-!
Verification development for the Demucs stem-management backend
(src/app.py).  The filesystem is modelled as a finite tree of named
entries; every handler that only reads the disk is embedded in explicit
state-passing style (returning the possibly-updated filesystem), so that
frame and idempotence properties are genuine theorems about the
embedding.  Signal-processing library calls (librosa, soundfile) are
abstracted into a structure of operations; the code under src/ is
translated around them.
-/

namespace DemucsApp

/-! ### String helpers (Python semantics, over character lists) -/
/-- Lower-case a string character by character (str.lower). -/
def lowerStr (s : String) : String := String.mk (s.toList.map Char.toLower)

/-- The test p.isPrefixOf s on character lists (str.startswith). -/
def strStartsWith (s p : String) : Bool := p.toList.isPrefixOf s.toList

/-- The test p.isSuffixOf s on character lists (str.endswith). -/
def strEndsWith (s p : String) : Bool := p.toList.isSuffixOf s.toList

def strContainsAux : List Char → List Char → Bool
  | [], needle => needle.isEmpty
  | c :: t, needle => needle.isPrefixOf (c :: t) || strContainsAux t needle

/-- Substring containment, Python `needle in hay`. -/
def strContains (hay needle : String) : Bool :=
  strContainsAux hay.toList needle.toList

def splitOnSlashAux : List Char → List (List Char)
  | [] => [[]]
  | c :: t =>
    let r := splitOnSlashAux t
    if c == '/' then [] :: r
    else match r with
      | h :: t2 => (c :: h) :: t2
      | [] => [[c]]

/-- Python str.split on a slash; never returns an empty list. -/
def splitOnSlash (s : String) : List String :=
  (splitOnSlashAux s.toList).map String.mk

/-- Python os.path.splitext: split name and dotted extension; a leading
dot (hidden file) or an all-dot stem yields no extension. -/
def splitExt (s : String) : String × String :=
  let cs := s.toList
  let rev := cs.reverse
  let extRev := rev.takeWhile (fun c => c != '.')
  let rest := rev.drop extRev.length
  match rest with
  | [] => (s, "")
  | _ :: base =>
    if base.isEmpty || base.all (fun c => c == '.') then (s, "")
    else (String.mk base.reverse, String.mk ('.' :: extRev.reverse))

/-- pathlib Path(s).stem: name without its final suffix; the dot must be
interior (not first and not last character). -/
def fileStem (s : String) : String :=
  let cs := s.toList
  match cs.reverse.findIdx? (fun c => c == '.') with
  | none => s
  | some k =>
    let i := cs.length - 1 - k
    if 0 < i && i < cs.length - 1 then String.mk (cs.take i) else s

/-- Python filename.rsplit(dot, 1)[1]: the text after the last dot. -/
def afterLastDot (s : String) : String :=
  let cs := s.toList
  match cs.reverse.findIdx? (fun c => c == '.') with
  | none => s
  | some k => String.mk ((cs.reverse.take k).reverse)

/-! ### Filesystem model -/
/-- A directory entry: a file or a directory with children.  Order of
children models the (fixed) order the OS reports listings in. -/
inductive Entry where
  | file (name : String)
  | dir (name : String) (children : List Entry)

def Entry.name : Entry → String
  | .file n => n
  | .dir n _ => n

/-- The filesystem is the listing of the server working directory. -/
abbrev FS := List Entry

/-- Paths are component lists relative to the working directory. -/
abbrev Path := List String

/-- Render a path the way Python os.path.join renders it. -/
def pathStr (p : Path) : String := String.intercalate "/" p

def lookupEntry (es : List Entry) (n : String) : Option Entry :=
  es.find? (fun e => e.name == n)

/-- Follow a path of directory components; none if some component is
missing or is a file. -/
def getDir? : List Entry → Path → Option (List Entry)
  | es, [] => some es
  | es, c :: cs =>
    match lookupEntry es c with
    | some (Entry.dir _ ch) => getDir? ch cs
    | _ => none

/-- The entry at a (nonempty) path. -/
def getEntry? : List Entry → Path → Option Entry
  | _, [] => none
  | es, [n] => lookupEntry es n
  | es, c :: cs =>
    match lookupEntry es c with
    | some (Entry.dir _ ch) => getEntry? ch cs
    | _ => none

/-- os.path.exists. -/
def pExists (fs : FS) (p : Path) : Bool := p.isEmpty || (getEntry? fs p).isSome

/-- os.path.isdir. -/
def pIsDir (fs : FS) (p : Path) : Bool :=
  match p with
  | [] => true
  | _ =>
    match getEntry? fs p with
    | some (Entry.dir _ _) => true
    | _ => false

/-- os.path.isfile. -/
def pIsFile (fs : FS) (p : Path) : Bool :=
  match getEntry? fs p with
  | some (Entry.file _) => true
  | _ => false

/-- os.listdir (empty when the path is missing or a file). -/
def listdir (fs : FS) (p : Path) : List String :=
  ((getDir? fs p).getD []).map Entry.name

def dirNames (es : List Entry) : List String :=
  es.filterMap (fun e => match e with | .dir n _ => some n | _ => none)

def fileNames (es : List Entry) : List String :=
  es.filterMap (fun e => match e with | .file n => some n | _ => none)

/-- One os.walk triple. -/
structure Frame where
  root : Path
  dirs : List String
  files : List String

mutual

/-- The os.walk frames contributed by one entry: none for a file, the
frame of a directory followed by the frames inside it. -/
def walkEntry : Entry → Path → List Frame
  | Entry.file _, _ => []
  | Entry.dir n ch, p =>
    { root := p ++ [n], dirs := dirNames ch, files := fileNames ch }
      :: walkList ch (p ++ [n])

/-- Frames of the subdirectories of a listing, top-down as os.walk. -/
def walkList : List Entry → Path → List Frame
  | [], _ => []
  | e :: rest, p => walkEntry e p ++ walkList rest p

end

def walkChildren (es : List Entry) (p : Path) : List Frame := walkList es p

/-- os.walk from a directory: its own frame first, then children. -/
def walkDir (es : List Entry) (p : Path) : List Frame :=
  { root := p, dirs := dirNames es, files := fileNames es } :: walkChildren es p

def setEntry (es : List Entry) (e : Entry) : List Entry :=
  if es.any (fun x => x.name == e.name) then
    es.map (fun x => if x.name == e.name then e else x)
  else es ++ [e]

/-- os.makedirs with exist_ok, creating each missing component. -/
def mkdirAll : List Entry → Path → List Entry
  | es, [] => es
  | es, c :: cs =>
    match lookupEntry es c with
    | some (Entry.dir _ ch) => setEntry es (Entry.dir c (mkdirAll ch cs))
    | _ => setEntry es (Entry.dir c (mkdirAll [] cs))

/-- Create or replace a file named f inside the directory at the path
(no-op when the parent directory is missing). -/
def writeFileAt : List Entry → Path → String → List Entry
  | es, [], f => setEntry es (Entry.file f)
  | es, c :: cs, f =>
    match lookupEntry es c with
    | some (Entry.dir _ ch) => setEntry es (Entry.dir c (writeFileAt ch cs f))
    | _ => es

/-- SEPARATED_FOLDER from app.py. -/
def sepPath : Path := ["separated"]

/-- UPLOAD_FOLDER (a tempfile directory), modelled as a fixed folder. -/
def uploadPath : Path := ["upload"]

/-- os.walk(SEPARATED_FOLDER): no frames at all when the root is absent. -/
def walkSep (fs : FS) : List Frame :=
  match getDir? fs sepPath with
  | some es => walkDir es sepPath
  | none => []

/-! ### State-passing primitives and loop combinators

Handlers are embedded as functions returning their response together
with the filesystem after the call.  Every primitive the Python code
invokes becomes an S-function below; the read-only ones return the
state unchanged, the mutating ones return an updated state. -/
def existsS (fs : FS) (p : Path) : Bool × FS := (pExists fs p, fs)

def isDirS (fs : FS) (p : Path) : Bool × FS := (pIsDir fs p, fs)

def isFileS (fs : FS) (p : Path) : Bool × FS := (pIsFile fs p, fs)

def listdirS (fs : FS) (p : Path) : List String × FS := (listdir fs p, fs)

def walkSepS (fs : FS) : List Frame × FS := (walkSep fs, fs)

def mkdirAllS (fs : FS) (p : Path) : Unit × FS := ((), mkdirAll fs p)

def writeFileS (fs : FS) (dir : Path) (f : String) : Unit × FS :=
  ((), writeFileAt fs dir f)

/-- A Python for-loop with an early return: run the step on each item
until one produces a response. -/
def firstSome {α β : Type} : FS → List α → (FS → α → Option β × FS) → Option β × FS
  | fs, [], _ => (none, fs)
  | fs, x :: xs, step =>
    match step fs x with
    | (some r, fs1) => (some r, fs1)
    | (none, fs1) => firstSome fs1 xs step

/-- A Python for-loop that accumulates: thread an accumulator and the
filesystem through the items. -/
def foldS {α σ : Type} : FS → List α → σ → (FS → σ → α → σ × FS) → σ × FS
  | fs, [], acc, _ => (acc, fs)
  | fs, x :: xs, acc, step =>
    match step fs acc x with
    | (acc1, fs1) => foldS fs1 xs acc1 step

/-! ### Manifests as JSON values -/
/-- JSON values as built by jsonify; the manifests in this program
contain only strings, arrays, objects and null. -/
inductive JVal where
  | null
  | str (s : String)
  | arr (l : List JVal)
  | obj (kvs : List (String × JVal))

/-- Top-level keys of a JSON object, in order. -/
def jKeys : JVal → List String
  | .obj kvs => kvs.map (fun kv => kv.1)
  | _ => []

/-- Look a key up in a JSON object. -/
def jGet : JVal → String → Option JVal
  | .obj kvs, k => (kvs.find? (fun kv => kv.1 == k)).map (fun kv => kv.2)
  | _, _ => none

/-- Python dict assignment on an association list: replace in place or
append at the end. -/
def setKey {v : Type} (l : List (String × v)) (k : String) (x : v) :
    List (String × v) :=
  if l.any (fun kv => kv.1 == k) then
    l.map (fun kv => if kv.1 == k then (k, x) else kv)
  else l ++ [(k, x)]

/-- Python list.extend on the value of an existing key, plain
assignment otherwise (load_project vocal-split merge). -/
def extendKey {v : Type} (l : List (String × List v)) (k : String)
    (xs : List v) : List (String × List v) :=
  if l.any (fun kv => kv.1 == k) then
    l.map (fun kv => if kv.1 == k then (k, kv.2 ++ xs) else kv)
  else l ++ [(k, xs)]

def hasKey {v : Type} (l : List (String × v)) (k : String) : Bool :=
  l.any (fun kv => kv.1 == k)

/-- The response of a handler: a served file, a JSON success payload,
or an error with an HTTP status code and the error-field text. -/
inductive Res where
  | serve (dir : Path) (fname : String)
  | ok (m : JVal)
  | err (code : Nat) (msg : String)

def Res.isErr : Res → Bool
  | .err _ _ => true
  | _ => false

def Res.isOk : Res → Bool
  | .ok _ => true
  | _ => false

def Res.manifest : Res → JVal
  | .ok m => m
  | _ => JVal.null

/-! ### serve_stem (app.py lines 115 to 213) -/
/-- The fixed extension probe order of stem resolution. -/
def stemExts : List String := [".mp3", ".wav", ".flac", ".m4a", ".ogg"]

/-- The model-folder preference order used throughout app.py. -/
def modelFolders : List String :=
  ["htdemucs_6s", "htdemucs_ft", "htdemucs", "spleeter"]

/-- Sequencing of early-return blocks: keep an already produced
response, otherwise continue with the next block. -/
def orElseS {β : Type} (p : Option β × FS) (k : FS → Option β × FS) :
    Option β × FS :=
  match p with
  | (some r, fs) => (some r, fs)
  | (none, fs) => k fs

/-- Loop body probing one extension in a directory. -/
def probeExtStep (dir : Path) (stemName : String) (fs : FS) (ext : String) :
    Option Res × FS :=
  let (ex, fs) := existsS fs (dir ++ [stemName ++ ext])
  (if ex then some (Res.serve dir (stemName ++ ext)) else none, fs)

/-- Probe a directory for stemName.ext over the fixed extension order,
serving the first file that exists (serve_stem inner loops). -/
def probeExtsS (fs : FS) (dir : Path) (stemName : String) : Option Res × FS :=
  firstSome fs stemExts (probeExtStep dir stemName)

/-- Loop body over uploaded files: serve a file whose filename stem
equals the job id (lines 128 to 132). -/
def uploadMixStep (jobId : String) (fs : FS) (f : String) : Option Res × FS :=
  if fileStem f == jobId then
    let (ex, fs) := existsS fs (uploadPath ++ [f])
    (if ex then some (Res.serve uploadPath f) else none, fs)
  else (none, fs)

/-- Loop body over model folders: mixture.mp3 first, then mix.wav and
mix.flac (lines 135 to 143). -/
def mixFolderStep (jobId : String) (fs : FS) (mf : String) : Option Res × FS :=
  let dir := sepPath ++ [mf, jobId]
  let (e1, fs) := existsS fs (dir ++ ["mixture.mp3"])
  if e1 then (some (Res.serve dir "mixture.mp3"), fs)
  else
    firstSome fs [".wav", ".flac"] (fun fs ext =>
      let (e2, fs) := existsS fs (dir ++ ["mix" ++ ext])
      (if e2 then some (Res.serve dir ("mix" ++ ext)) else none, fs))

/-- Special handling for the mix: uploaded originals first, then
tool-produced mixture files in the canonical model folders (lines 124
to 143).  Falls through (none) when nothing matches. -/
def mixBlockS (fs : FS) (jobId : String) (stemName : String) : Option Res × FS :=
  if stemName == "mix" then
    let (ul, fs) := listdirS fs uploadPath
    orElseS (firstSome fs ul (uploadMixStep jobId)) (fun fs =>
      firstSome fs modelFolders (mixFolderStep jobId))
  else (none, fs)

/-- Loop body over walk frames for a child split: the frame must
mention the job id and list the parent directory (lines 149 to 158). -/
def parentFrameStep (jobId parentDir stemName : String) (fs : FS) (fr : Frame) :
    Option Res × FS :=
  if strContains (pathStr fr.root) jobId && fr.dirs.contains parentDir then
    let childDir := fr.root ++ [parentDir]
    let (ex, fs) := existsS fs childDir
    if ex then probeExtsS fs childDir stemName else (none, fs)
  else (none, fs)

/-- Probe one of the legacy split directories when it exists. -/
def legacyDirStep (sub : String) (jobId stemName : String) (fs : FS) :
    Option Res × FS :=
  let d := sepPath ++ [sub, jobId]
  let (ex, fs) := existsS fs d
  if ex then probeExtsS fs d stemName else (none, fs)

/-- Child-split resolution: generic walk over the separated tree, then
the legacy vocal_splits and drum_splits directories (lines 145 to 178). -/
def parentBlockS (fs : FS) (jobId parentDir stemName : String) : Option Res × FS :=
  let (frames, fs) := walkSepS fs
  orElseS (firstSome fs frames (parentFrameStep jobId parentDir stemName))
    (fun fs =>
      orElseS
        (if parentDir == "vocals" then legacyDirStep "vocal_splits" jobId stemName fs
         else (none, fs))
        (fun fs =>
          if parentDir == "drums" then legacyDirStep "drum_splits" jobId stemName fs
          else (none, fs)))

/-- The canonical candidate directories for a job (lines 184 to 189). -/
def possibleBaseDirs (jobId : String) : List Path :=
  modelFolders.map (fun mf => sepPath ++ [mf, jobId])

/-- Loop body over candidate base directories (lines 191 to 196). -/
def baseDirStep (stemName : String) (fs : FS) (d : Path) : Option Res × FS :=
  let (ex, fs) := existsS fs d
  if ex then probeExtsS fs d stemName else (none, fs)

/-- Loop body over walk frames for generic top-level resolution
(lines 199 to 204). -/
def walkProbeStep (jobId stemName : String) (fs : FS) (fr : Frame) :
    Option Res × FS :=
  if strContains (pathStr fr.root) jobId then probeExtsS fs fr.root stemName
  else (none, fs)

/-- Generic top-level resolution: canonical base directories first,
then any walked directory whose rendered path contains the job id
(lines 180 to 204). -/
def genericBlockS (fs : FS) (jobId stemName : String) : Option Res × FS :=
  orElseS (firstSome fs (possibleBaseDirs jobId) (baseDirStep stemName))
    (fun fs =>
      let (frames, fs) := walkSepS fs
      firstSome fs frames (walkProbeStep jobId stemName))

/-- The 404 message of serve_stem (line 206). -/
def stemNotFoundMsg (jobId stemPath : String) : String :=
  "Stem " ++ stemPath ++ " not found for job " ++ jobId

/-- Run the child-split search only when a parent directory was named
in the request path (the `if parent_dir:` guard, line 146). -/
def parentCaseS (o : Option String) (jobId stemName : String) (fs : FS) :
    Option Res × FS :=
  match o with
  | some p => parentBlockS fs jobId p stemName
  | none => (none, fs)

/-- serve_stem: split the requested path, run the mix special case, the
child-split search, then generic resolution, else 404. -/
def serveStemS (fs : FS) (jobId stemPath : String) : Res × FS :=
  let parts := splitOnSlash stemPath
  let stemName := parts.getLastD stemPath
  let parentDir? := if parts.length > 1 then some (parts.headD "") else none
  match
    orElseS (mixBlockS fs jobId stemName) (fun fs =>
      orElseS (parentCaseS parentDir? jobId stemName fs)
        (fun fs => genericBlockS fs jobId stemName))
  with
  | (some r, fs) => (r, fs)
  | (none, fs) => (Res.err 404 (stemNotFoundMsg jobId stemPath), fs)

/-! ### load_project (app.py lines 943 to 1176) -/
/-- Sequence a read or write against its continuation. -/
def bindS {α β : Type} (p : α × FS) (k : α → FS → β × FS) : β × FS := k p.1 p.2

/-- Stem names load_project scans for (line 990). -/
def standardStems : List String :=
  ["vocals", "drums", "bass", "guitar", "piano", "other", "accompaniment"]

/-- Drum child names accepted by load_project (lines 1046 to 1047). -/
def validDrumParts : List String :=
  ["kick", "snare", "hihat", "hi-hat", "hi_hat", "cymbal", "cymbals",
   "tom", "toms", "overhead", "overheads", "room", "crash", "ride"]

/-- Vocal child names accepted by load_project (line 1070). -/
def validVocalParts : List String :=
  ["lead", "backing", "backing_vocals", "lead_vocals"]

def drumPartOk (sn : String) : Bool :=
  validDrumParts.any (fun part => strContains (lowerStr sn) part)
    || validDrumParts.contains (lowerStr sn)

def vocalPartOk (sn : String) : Bool :=
  validVocalParts.any (fun part => strContains (lowerStr sn) part)
    || validVocalParts.contains (lowerStr sn)

/-- A child-split entry as load_project and the refiners emit it. -/
def childStemObj (jobId parent name : String) (path : Path) : JVal :=
  JVal.obj [("name", JVal.str name),
            ("url", JVal.str ("/api/stems/" ++ jobId ++ "/" ++ parent ++ "/" ++ name)),
            ("path", JVal.str (pathStr path)),
            ("parent", JVal.str parent)]

/-- One iteration of the top-level stem scan (lines 992 to 1008): mix
detection by substring, then first standard stem the lowered name
starts with, recorded when the extension is known. -/
def stemScanStep (fp : Path) (fs : FS)
    (st : List String × List (String × Path) × Option Path) (item : String) :
    (List String × List (String × Path) × Option Path) × FS :=
  let found := st.1
  let paths := st.2.1
  let mixPath := st.2.2
  let ip := fp ++ [item]
  let (isf, fs) := isFileS fs ip
  if isf then
    let nl := lowerStr item
    if strContains nl "mix" || strContains nl "original" || strContains nl "mixture" then
      ((found, paths, some ip), fs)
    else
      match standardStems.find? (fun sn => strStartsWith nl (lowerStr sn)) with
      | some sn =>
        if stemExts.contains (lowerStr (splitExt item).2) then
          ((if found.contains sn then found else found ++ [sn],
            setKey paths sn ip, mixPath), fs)
        else ((found, paths, mixPath), fs)
      | none => ((found, paths, mixPath), fs)
  else ((found, paths, mixPath), fs)

/-- One file inside a vocals or drums subdirectory in the first
child-split scan (lines 1018 to 1030): any known extension counts. -/
def childScanInner (dirPath : Path) (jobId parent : String) (fs : FS)
    (kacc : List JVal) (ci : String) : List JVal × FS :=
  let cip := dirPath ++ [ci]
  let (isf, fs) := isFileS fs cip
  if isf then
    if stemExts.contains (lowerStr (splitExt ci).2) then
      (kacc ++ [childStemObj jobId parent (splitExt ci).1 cip], fs)
    else (kacc, fs)
  else (kacc, fs)

/-- One iteration of the first child-split scan over the project folder
(lines 1012 to 1032). -/
def childScanStep (fp : Path) (jobId : String) (fs : FS)
    (acc : List (String × List JVal)) (item : String) :
    List (String × List JVal) × FS :=
  let ip := fp ++ [item]
  bindS (isDirS fs ip) (fun isd fs =>
    if isd && (["vocals", "drums"].contains (lowerStr item)) then
      bindS (listdirS fs ip) (fun children fs =>
        bindS (foldS fs children [] (childScanInner ip jobId item)) (fun kids fs =>
          (if kids.isEmpty then acc else setKey acc item kids, fs)))
    else (acc, fs))

/-- One file of a drums subfolder or the legacy drum_splits directory
(lines 1038 to 1054 and 1089 to 1104): name must look like a drum part. -/
def drumScanInner (dirPath : Path) (jobId : String) (fs : FS)
    (kacc : List JVal) (item : String) : List JVal × FS :=
  let ip := dirPath ++ [item]
  let (isf, fs) := isFileS fs ip
  if isf then
    if stemExts.contains (lowerStr (splitExt item).2) then
      if drumPartOk (splitExt item).1 then
        (kacc ++ [childStemObj jobId "drums" (splitExt item).1 ip], fs)
      else (kacc, fs)
    else (kacc, fs)
  else (kacc, fs)

/-- One file of a vocals subfolder or the legacy vocal_splits directory
(lines 1062 to 1077 and 1112 to 1126): name must look like a vocal part. -/
def vocalScanInner (dirPath : Path) (jobId : String) (fs : FS)
    (kacc : List JVal) (item : String) : List JVal × FS :=
  let ip := dirPath ++ [item]
  let (isf, fs) := isFileS fs ip
  if isf then
    if stemExts.contains (lowerStr (splitExt item).2) then
      if vocalPartOk (splitExt item).1 then
        (kacc ++ [childStemObj jobId "vocals" (splitExt item).1 ip], fs)
      else (kacc, fs)
    else (kacc, fs)
  else (kacc, fs)

/-- Splitter and model detection from the folder position under the
separated root (lines 963 to 981). -/
def detectSplitterModel (fp : Path) : String × String :=
  if sepPath.isPrefixOf fp then
    match (fp.drop sepPath.length).head? with
    | some mf =>
      if strStartsWith mf "htdemucs" then ("demucs", mf)
      else if mf == "spleeter" then ("spleeter", "4stems")
      else ("demucs", "htdemucs")
    | none => ("demucs", "htdemucs")
  else ("demucs", "htdemucs")

def mixUrlObj (jobId : String) (p : Path) : JVal :=
  JVal.obj [("url", JVal.str ("/api/stems/" ++ jobId ++ "/mix")),
            ("path", JVal.str (pathStr p))]

/-- load_project: validate the caller-supplied folder, scan for stems,
child splits (current, subfolder and legacy layouts) and the mix, then
build the eight-key manifest. -/
def loadProjectS (fs : FS) (fp : Path) : Res × FS :=
  if fp.isEmpty then (Res.err 400 "No folder path provided", fs)
  else
    bindS (existsS fs fp) (fun ex fs =>
      if !ex then (Res.err 404 ("Path does not exist: " ++ pathStr fp), fs)
      else
        bindS (isDirS fs fp) (fun isd fs =>
          if !isd then (Res.err 400 ("Path is not a directory: " ++ pathStr fp), fs)
          else
            let jobId := fp.getLastD ""
            let sm := detectSplitterModel fp
            bindS (listdirS fs fp) (fun items fs =>
              bindS (foldS fs items
                  (([], [], none) : List String × List (String × Path) × Option Path)
                  (stemScanStep fp)) (fun scan fs =>
                bindS (foldS fs items [] (childScanStep fp jobId)) (fun cs1 fs =>
                  bindS (existsS fs (fp ++ ["drums"])) (fun dex fs =>
                    bindS (if dex then isDirS fs (fp ++ ["drums"]) else (false, fs))
                      (fun disd fs =>
                        bindS
                          (if dex && disd then
                            bindS (listdirS fs (fp ++ ["drums"])) (fun children fs =>
                              bindS (foldS fs children []
                                  (drumScanInner (fp ++ ["drums"]) jobId))
                                (fun kids fs =>
                                  (if kids.isEmpty then cs1
                                   else setKey cs1 "drums" kids, fs)))
                          else (cs1, fs))
                          (fun cs2 fs =>
                            bindS (existsS fs (fp ++ ["vocals"])) (fun vex fs =>
                              bindS (if vex then isDirS fs (fp ++ ["vocals"])
                                     else (false, fs)) (fun visd fs =>
                                bindS
                                  (if vex && visd then
                                    bindS (listdirS fs (fp ++ ["vocals"]))
                                      (fun children fs =>
                                        bindS (foldS fs children []
                                            (vocalScanInner (fp ++ ["vocals"]) jobId))
                                          (fun kids fs =>
                                            (if kids.isEmpty then cs2
                                             else extendKey cs2 "vocals" kids, fs)))
                                  else (cs2, fs))
                                  (fun cs3 fs =>
                                    bindS (existsS fs (sepPath ++ ["drum_splits", jobId]))
                                      (fun lex fs =>
                                        bindS
                                          (if lex && !(hasKey cs3 "drums") then
                                            bindS (listdirS fs
                                                (sepPath ++ ["drum_splits", jobId]))
                                              (fun children fs =>
                                                bindS (foldS fs children []
                                                    (drumScanInner
                                                      (sepPath ++ ["drum_splits", jobId])
                                                      jobId))
                                                  (fun kids fs =>
                                                    (if kids.isEmpty then cs3
                                                     else setKey cs3 "drums" kids, fs)))
                                          else (cs3, fs))
                                          (fun cs4 fs =>
                                            bindS (existsS fs
                                                (sepPath ++ ["vocal_splits", jobId]))
                                              (fun lvex fs =>
                                                bindS
                                                  (if lvex && !(hasKey cs4 "vocals") then
                                                    bindS (listdirS fs
                                                        (sepPath ++ ["vocal_splits", jobId]))
                                                      (fun children fs =>
                                                        bindS (foldS fs children []
                                                            (vocalScanInner
                                                              (sepPath ++
                                                                ["vocal_splits", jobId])
                                                              jobId))
                                                          (fun kids fs =>
                                                            (if kids.isEmpty then cs4
                                                             else setKey cs4 "vocals" kids,
                                                             fs)))
                                                  else (cs4, fs))
                                                  (fun cs5 fs =>
                                                    let stemsArr := scan.1.map (fun sn =>
                                                      JVal.obj
                                                        [("name", JVal.str sn),
                                                         ("url", JVal.str
                                                           ("/api/stems/" ++ jobId ++
                                                             "/" ++ sn)),
                                                         ("path", JVal.str (pathStr
                                                           (((scan.2.1.find?
                                                               (fun kv => kv.1 == sn)).map
                                                             (fun kv => kv.2)).getD [])))])
                                                    bindS
                                                      (match scan.2.2 with
                                                       | some mp => (mixUrlObj jobId mp, fs)
                                                       | none =>
                                                         bindS (listdirS fs uploadPath)
                                                           (fun ul fs =>
                                                             (match ul.find?
                                                                 (fun f =>
                                                                   fileStem f == jobId) with
                                                              | some f => mixUrlObj jobId
                                                                  (uploadPath ++ [f])
                                                              | none => JVal.null, fs)))
                                                      (fun mixVal fs =>
                                                        (Res.ok (JVal.obj
                                                          [("status", JVal.str "success"),
                                                           ("job_id", JVal.str jobId),
                                                           ("splitter", JVal.str sm.1),
                                                           ("model", JVal.str sm.2),
                                                           ("output_dir",
                                                             JVal.str (pathStr fp)),
                                                           ("stems", JVal.arr stemsArr),
                                                           ("mix", mixVal),
                                                           ("child_splits", JVal.obj
                                                             (cs5.map (fun kv =>
                                                               (kv.1,
                                                                JVal.arr kv.2))))]),
                                                         fs)))))))))))))))))

/-! ### allowed_file and the upload boundary (app.py lines 24 to 30) -/
def allowedExtensions : List String :=
  ["wav", "mp3", "aiff", "aif", "m4a", "flac", "ogg"]

/-- allowed_file: a dot is present and the lowered text after the last
dot is a known audio extension. -/
def allowedFile (filename : String) : Bool :=
  filename.toList.contains '.'
    && allowedExtensions.contains (lowerStr (afterLastDot filename))

/-! ### Separation manifest assembly (app.py lines 288 to 325) -/
/-- What run_demucs_separation and run_spleeter_separation return. -/
structure RunResult where
  output_dir : Path
  stems : List String
  stem_paths : List (String × Path)
  mix_path : Option Path

/-- The manifest separate_audio builds around a run result: all eight
top-level keys present, stems from the run, mix from the run or the
matching uploaded file. -/
def buildSepManifest (fs : FS) (jobId splitter model : String) (r : RunResult) :
    JVal :=
  let stemsArr := r.stems.map (fun sn =>
    JVal.obj
      [("name", JVal.str sn),
       ("url", JVal.str ("/api/stems/" ++ jobId ++ "/" ++ sn)),
       ("path", JVal.str (pathStr
         (((r.stem_paths.find? (fun kv => kv.1 == sn)).map (fun kv => kv.2)).getD [])))])
  let mixPath :=
    match r.mix_path with
    | some mp => some mp
    | none =>
      ((listdir fs uploadPath).find? (fun f => fileStem f == jobId)).map
        (fun f => uploadPath ++ [f])
  let mixVal :=
    match mixPath with
    | some mp => if pExists fs mp then mixUrlObj jobId mp else JVal.null
    | none => JVal.null
  JVal.obj
    [("status", JVal.str "success"),
     ("job_id", JVal.str jobId),
     ("splitter", JVal.str splitter),
     ("model", JVal.str model),
     ("output_dir", JVal.str (pathStr r.output_dir)),
     ("stems", JVal.arr stemsArr),
     ("mix", mixVal),
     ("child_splits", JVal.obj [])]

/-! ### Signals and the abstract audio library

The refiners call librosa and soundfile; those library functions are
not part of this repository, so they are abstracted into a structure of
operations.  Signals are rational-valued sample lists, time-frequency
grids are lists of frequency rows of complex (pair) bins. -/
abbrev Sig := List ℚ

abbrev Cx := ℚ × ℚ

abbrev Grid := List (List Cx)

def addSig (a b : Sig) : Sig := List.zipWith (fun x y => x + y) a b

def smulSig (c : ℚ) (a : Sig) : Sig := a.map (fun x => c * x)

def peakAbs (s : Sig) : ℚ := s.foldr (fun x m => max |x| m) 0

/-- librosa.util.normalize on a one-dimensional signal: divide by the
peak absolute value, leaving an all-zero signal unchanged. -/
def normalizeSig (s : Sig) : Sig :=
  if peakAbs s = 0 then s else s.map (fun x => x / peakAbs s)

/-- librosa.to_mono: the mean across channels. -/
def monoOf (chs : List Sig) : Sig :=
  match chs with
  | [] => []
  | c :: cs =>
    (cs.foldl (fun acc d => addSig acc d) c).map
      (fun x => x / ((cs.length + 1 : ℕ) : ℚ))

/-- The abstract librosa and soundfile operations consumed by the
refiners.  frameMask abstracts the spectral-centroid pipeline of
split_vocals (centroid of the magnitude grid, mean, standard deviation
and the 0.7 sigma comparison, lines 635 to 643): it returns the
per-frame lead mask. -/
structure Lib where
  loadStereo : Path → List Sig
  loadMono : Path → Sig
  stft : Sig → Grid
  istft : Grid → Sig
  hpss : Sig → Sig × Sig
  frameMask : Grid → List Bool
  fftFreqs : List ℚ

/-- Walk one frequency row, zeroing the entries of columns whose mask
entry is false; columns beyond the mask are untouched. -/
def zeroColsAux (mask : List Bool) : ℕ → List Cx → List Cx
  | _, [] => []
  | i, v :: t =>
    (match mask.get? i with
     | some false => ((0 : ℚ), (0 : ℚ))
     | _ => v) :: zeroColsAux mask (i + 1) t

/-- Zero the columns (frames) whose mask entry is false, as the loop at
lines 650 to 654 does. -/
def zeroFramesWhere (mask : List Bool) (g : Grid) : Grid :=
  g.map (zeroColsAux mask 0)

def notMask (m : List Bool) : List Bool := m.map (fun b => !b)

/-! ### The vocal refiner signal path (app.py lines 596 to 670) -/
/-- The vocal refiner on a loaded multichannel signal: center and side
channels, harmonic-percussive decomposition of the mono downmix (the
result is bound but never used afterwards, exactly as in the source),
frame masking of the mono-downmix STFT, then the 0.7 and 0.3 blend and
peak normalization of both outputs. -/
def vocalsDSP (L : Lib) (y : List Sig) : Sig × Sig :=
  let y0 := y.getD 0 []
  let y1 := y.getD 1 []
  let center := List.zipWith (fun a b => (a + b) / 2) y0 y1
  let sides := List.zipWith (fun a b => (a - b) / 2) y0 y1
  let yMono := monoOf y
  let hp := L.hpss yMono
  let stftM := L.stft yMono
  let leadMask := L.frameMask stftM
  let backingMask := notMask leadMask
  let leadStft := zeroFramesWhere leadMask stftM
  let backingStft := zeroFramesWhere backingMask stftM
  let leadAudio := L.istft leadStft
  let backingAudio := L.istft backingStft
  let centerMono := monoOf [center, center]
  let leadFinal := addSig (smulSig (7/10) centerMono) (smulSig (3/10) leadAudio)
  let backingFinal := addSig (smulSig (7/10) sides) (smulSig (3/10) backingAudio)
  (normalizeSig leadFinal, normalizeSig backingFinal)

/-- Center channel (L plus R over two). -/
def centerOf (y : List Sig) : Sig :=
  List.zipWith (fun a b => (a + b) / 2) (y.getD 0 []) (y.getD 1 [])

/-- Side channel (L minus R over two). -/
def sideOf (y : List Sig) : Sig :=
  List.zipWith (fun a b => (a - b) / 2) (y.getD 0 []) (y.getD 1 [])

/-- The signal the code actually blends into the lead: the inverted
frame-masked STFT of the mono downmix itself. -/
def maskedMonoLead (L : Lib) (y : List Sig) : Sig :=
  L.istft (zeroFramesWhere (L.frameMask (L.stft (monoOf y))) (L.stft (monoOf y)))

/-- The backing counterpart: frames of the mono-downmix STFT kept where
the lead mask is false. -/
def maskedMonoBacking (L : Lib) (y : List Sig) : Sig :=
  L.istft (zeroFramesWhere (notMask (L.frameMask (L.stft (monoOf y))))
    (L.stft (monoOf y)))

/-- The lead signal as the specification describes it: 0.7 times the
center plus 0.3 times the frame-masked HARMONIC part of the
harmonic-percussive decomposition of the mono downmix. -/
def claimedVocalLead (L : Lib) (y : List Sig) : Sig :=
  let center := centerOf y
  let yMono := monoOf y
  let harmonic := (L.hpss yMono).1
  let mask := L.frameMask (L.stft yMono)
  let maskedHarm := L.istft (zeroFramesWhere mask (L.stft harmonic))
  normalizeSig (addSig (smulSig (7/10) center) (smulSig (3/10) maskedHarm))

/-! ### The drum refiner signal path (app.py lines 765 to 814) -/
def boolMaskOfRange (lo hi : ℚ) (freqs : List ℚ) : List Bool :=
  freqs.map (fun f => decide (lo ≤ f) && decide (f ≤ hi))

/-- np.tile of a per-frequency mask across the frame axis. -/
def tileMask (m : List Bool) (n : ℕ) : List (List Bool) :=
  m.map (fun b => List.replicate n b)

/-- Elementwise product of a complex grid with a boolean mask grid. -/
def mulMask (g : Grid) (m : List (List Bool)) : Grid :=
  List.zipWith (fun row mrow =>
    List.zipWith (fun v b => if b then v else ((0 : ℚ), (0 : ℚ))) row mrow) g m

/-- The drum refiner: four fixed frequency-band masks tiled across the
frames, applied to the STFT (phase of kept bins untouched), inverted
and peak-normalized per band. -/
def drumsDSP (L : Lib) (y : Sig) : List (String × Sig) :=
  let stftD := L.stft y
  let freqs := L.fftFreqs
  let nCols := (stftD.headD []).length
  let kickMask := boolMaskOfRange 20 200 freqs
  let snareMask := boolMaskOfRange 200 2000 freqs
  let hihatMask := boolMaskOfRange 2000 8000 freqs
  let cymbalMask := boolMaskOfRange 4000 20000 freqs
  let kickStft := mulMask stftD (tileMask kickMask nCols)
  let snareStft := mulMask stftD (tileMask snareMask nCols)
  let hihatStft := mulMask stftD (tileMask hihatMask nCols)
  let cymbalStft := mulMask stftD (tileMask cymbalMask nCols)
  let kickAudio := normalizeSig (L.istft kickStft)
  let snareAudio := normalizeSig (L.istft snareStft)
  let hihatAudio := normalizeSig (L.istft hihatStft)
  let cymbalAudio := normalizeSig (L.istft cymbalStft)
  [("kick", kickAudio), ("snare", snareAudio),
   ("hihat", hihatAudio), ("cymbals", cymbalAudio)]

/-- Keep the rows whose frequency lies inside the band, zero the rows
outside it: the specification reading of the band masking. -/
def bandKeep (lo hi : ℚ) (freqs : List ℚ) (g : Grid) : Grid :=
  List.zipWith (fun f row =>
    if lo ≤ f ∧ f ≤ hi then row else row.map (fun _ => ((0 : ℚ), (0 : ℚ))))
    freqs g

/-! ### The refinement runs (app.py lines 557 to 723 and 725 to 862) -/
/-- Locate a stem file for a refiner: canonical model folders first,
then any walked directory that mentions the job id and lists the file
(lines 566 to 580 and 734 to 748).  Returns the file path and its
folder. -/
def findStemFileS (fs : FS) (jobId fname : String) : Option (Path × Path) × FS :=
  orElseS
    (firstSome fs modelFolders (fun fs mf =>
      let p := sepPath ++ [mf, jobId]
      let (ex, fs) := existsS fs (p ++ [fname])
      (if ex then some ((p ++ [fname] : Path), p) else none, fs)))
    (fun fs =>
      let (frames, fs) := walkSepS fs
      firstSome fs frames (fun fs fr =>
        (if strContains (pathStr fr.root) jobId && fr.files.contains fname then
          some ((fr.root ++ [fname] : Path), fr.root)
         else none, fs)))

/-- The outcome of a refinement run: the HTTP response, the filesystem
afterwards, and the output files successfully written. -/
structure RunOut where
  res : Res
  fs : FS
  written : List Path

/-- split_vocals: find vocals.mp3, create the vocals subfolder, run the
signal path, write lead.wav and backing.wav (a failing write raises and
is answered with a 500), then the five-key success manifest.  The
write oracle wok models soundfile write success. -/
def splitVocalsRun (L : Lib) (wok : Path → Bool) (fs : FS) (jobId : String) :
    RunOut :=
  match findStemFileS fs jobId "vocals.mp3" with
  | (none, fs) => ⟨Res.err 404 "Vocals stem not found", fs, []⟩
  | (some sp, fs) =>
    let dir := sp.2 ++ ["vocals"]
    let fs := mkdirAll fs dir
    let y := L.loadStereo sp.1
    let y2 := if y.length == 1 then [y.getD 0 [], y.getD 0 []] else y
    let outs := vocalsDSP L y2
    let leadP := dir ++ ["lead.wav"]
    let backingP := dir ++ ["backing.wav"]
    if wok leadP then
      let fs := writeFileAt fs dir "lead.wav"
      if wok backingP then
        let fs := writeFileAt fs dir "backing.wav"
        ⟨Res.ok (JVal.obj
          [("status", JVal.str "success"),
           ("job_id", JVal.str jobId),
           ("splitter", JVal.str "vocal_separation"),
           ("model", JVal.str "spectral_analysis"),
           ("child_splits", JVal.obj
             [("vocals", JVal.arr
               [childStemObj jobId "vocals" "lead" leadP,
                childStemObj jobId "vocals" "backing" backingP])])]),
         fs, [leadP, backingP]⟩
      else ⟨Res.err 500 "Vocal separation failed", fs, [leadP]⟩
    else ⟨Res.err 500 "Vocal separation failed", fs, []⟩

/-- The write loop of split_drums (lines 817 to 825): write each part,
collecting the child entries and written paths; a failing write raises
out of the loop. -/
def writeLoop (wok : Path → Bool) :
    FS → Path → String → List (String × Sig) → (List JVal × List Path × Bool) × FS
  | fs, _, _, [] => (([], [], true), fs)
  | fs, dir, jobId, (name, _) :: rest =>
    let p := dir ++ [name ++ ".wav"]
    if wok p then
      let fs := writeFileAt fs dir (name ++ ".wav")
      match writeLoop wok fs dir jobId rest with
      | ((objs, paths, okAll), fs1) =>
        ((childStemObj jobId "drums" name p :: objs, p :: paths, okAll), fs1)
    else (([], [], false), fs)

/-- The error text of the empty-output guard at lines 841 to 845. -/
def noDrumPartsMsg : String := "No drum parts were created"

/-- split_drums: find drums.mp3, create the drums subfolder, run the
band split, write the four parts, guard against an empty child list,
then the five-key success manifest. -/
def splitDrumsRun (L : Lib) (wok : Path → Bool) (fs : FS) (jobId : String) :
    RunOut :=
  match findStemFileS fs jobId "drums.mp3" with
  | (none, fs) => ⟨Res.err 404 "Drums stem not found", fs, []⟩
  | (some sp, fs) =>
    let dir := sp.2 ++ ["drums"]
    let fs := mkdirAll fs dir
    let y := L.loadMono sp.1
    let parts := drumsDSP L y
    match writeLoop wok fs dir jobId parts with
    | ((objs, paths, okAll), fs) =>
      if !okAll then ⟨Res.err 500 "Drum separation failed", fs, paths⟩
      else if objs.isEmpty then ⟨Res.err 400 noDrumPartsMsg, fs, paths⟩
      else
        ⟨Res.ok (JVal.obj
          [("status", JVal.str "success"),
           ("job_id", JVal.str jobId),
           ("splitter", JVal.str "drum_separation"),
           ("model", JVal.str "htdemucs_6s"),
           ("child_splits", JVal.obj [("drums", JVal.arr objs)])]),
         fs, paths⟩

/-- Names of the drum child splits registered in a manifest. -/
def drumChildNames (m : JVal) : List String :=
  match jGet m "child_splits" with
  | some (JVal.obj kvs) =>
    match (kvs.find? (fun kv => kv.1 == "drums")).map (fun kv => kv.2) with
    | some (JVal.arr l) =>
      l.filterMap (fun o =>
        match jGet o "name" with
        | some (JVal.str s) => some s
        | _ => none)
    | _ => []
  | _ => []

/-! ### add_stem (app.py lines 864 to 924) -/
/-- Infer a stem name from the filename: lowered pathlib stem with the
common prefixes and suffixes stripped (lines 878 to 886). -/
def inferStemName (filename : String) : String :=
  let s := lowerStr (fileStem filename)
  let s := ["stem_", "track_", "audio_"].foldl
    (fun s p => if strStartsWith s p then (s.toList.drop p.length).asString else s) s
  ["_stem", "_track", "_audio"].foldl
    (fun s suf => if strEndsWith s suf then
        (s.toList.take (s.toList.length - suf.toList.length)).asString
      else s) s

/-- add_stem: validate the upload, pick or create the project folder,
and save the file under stemName plus the lowered original extension. -/
def addStemS (fs : FS) (jobId filename stemNameForm : String) : Res × FS :=
  if filename == "" then (Res.err 400 "No file selected", fs)
  else
    let stemName := if stemNameForm == "" then inferStemName filename
                    else stemNameForm
    if !(allowedFile filename) then (Res.err 400 "Invalid file type", fs)
    else
      match
        (firstSome fs modelFolders (fun fs mf =>
          let p := sepPath ++ [mf, jobId]
          let (ex, fs) := existsS fs p
          (if ex then some p else none, fs)))
      with
      | (some projectPath, fs) =>
        let ext := lowerStr (splitExt filename).2
        let fs := writeFileAt fs projectPath (stemName ++ ext)
        (Res.ok (JVal.obj
          [("status", JVal.str "success"),
           ("stem_name", JVal.str stemName),
           ("url", JVal.str ("/api/stems/" ++ jobId ++ "/" ++ stemName)),
           ("path", JVal.str (pathStr (projectPath ++ [stemName ++ ext]))),
           ("message", JVal.str ("Stem " ++ stemName ++ " added successfully"))]),
         fs)
      | (none, fs) =>
        let projectPath := sepPath ++ ["htdemucs", jobId]
        let fs := mkdirAll fs projectPath
        let ext := lowerStr (splitExt filename).2
        let fs := writeFileAt fs projectPath (stemName ++ ext)
        (Res.ok (JVal.obj
          [("status", JVal.str "success"),
           ("stem_name", JVal.str stemName),
           ("url", JVal.str ("/api/stems/" ++ jobId ++ "/" ++ stemName)),
           ("path", JVal.str (pathStr (projectPath ++ [stemName ++ ext]))),
           ("message", JVal.str ("Stem " ++ stemName ++ " added successfully"))]),
         fs)

/-! ### Concrete instances used by witnesses -/
/-- A small concrete library instance: a one-row STFT whose columns are
the samples, an hpss whose harmonic part keeps only the first sample
(so that harmonic and downmix genuinely differ), and an all-true frame
mask. -/
def toyLib : Lib where
  loadStereo := fun _ => [[1, 1], [1, -1]]
  loadMono := fun _ => [1, 1]
  stft := fun x => [x.map (fun q => (q, 0))]
  istft := fun g => (g.headD []).map (fun c => c.1)
  hpss := fun x => (x.headD 0 :: (x.tail.map (fun _ => 0)), x)
  frameMask := fun g => (g.headD []).map (fun _ => true)
  fftFreqs := [100]

/-- A project with a finished htdemucs separation of song1. -/
def fsSong1 : FS :=
  [Entry.dir "separated"
    [Entry.dir "htdemucs"
      [Entry.dir "song1"
        [Entry.file "vocals.mp3", Entry.file "drums.mp3"]]]]

/-! ### Claim C5: manifest top-level keys -/
/-- The eight keys of the separation and load-project manifests. -/
def manifestKeys8 : List String :=
  ["status", "job_id", "splitter", "model", "output_dir", "stems", "mix",
   "child_splits"]

/-- The five keys the refinement manifests actually carry. -/
def manifestKeys5 : List String :=
  ["status", "job_id", "splitter", "model", "child_splits"]

/-- A tree holding both vocals.wav and vocals.mp3 for job trk (the wav
listed first in the directory). -/
def fsBoth : FS :=
  [Entry.dir "separated"
    [Entry.dir "htdemucs_6s"
      [Entry.dir "trk"
        [Entry.file "vocals.wav", Entry.file "vocals.mp3"]]]]

/-! ### Claim C10: aiff uploads against the probe extensions -/
/-- A disk with an empty separated root. -/
def fsEmptySep : FS := [Entry.dir "separated" []]

/-! ## Theorems -/

theorem firstSome_snd {α β : Type} (step : FS → α → Option β × FS)
    (h : ∀ fs x, (step fs x).2 = fs) :
    ∀ (xs : List α) (fs : FS), (firstSome fs xs step).2 = fs := by
  intro xs
  induction xs with
  | nil => intro fs; rfl
  | cons x xs ih =>
    intro fs
    have hx := h fs x
    unfold firstSome
    rcases hs : step fs x with ⟨r, fs1⟩
    have hfs1 : fs1 = fs := by rw [hs] at hx; exact hx
    cases r with
    | some r => simpa using hfs1
    | none => simpa [hfs1] using ih fs

theorem foldS_snd {α σ : Type} (step : FS → σ → α → σ × FS)
    (h : ∀ fs acc x, (step fs acc x).2 = fs) :
    ∀ (xs : List α) (fs : FS) (acc : σ), (foldS fs xs acc step).2 = fs := by
  intro xs
  induction xs with
  | nil => intro fs acc; rfl
  | cons x xs ih =>
    intro fs acc
    have hx := h fs acc x
    unfold foldS
    rcases hs : step fs acc x with ⟨acc1, fs1⟩
    have hfs1 : fs1 = fs := by rw [hs] at hx; exact hx
    simpa [hfs1] using ih fs acc1

/-- When every step of an early-return loop yields no response on the
given state and leaves the state unchanged, the loop yields none. -/
theorem firstSome_none {α β : Type} (step : FS → α → Option β × FS)
    (hframe : ∀ fs x, (step fs x).2 = fs) :
    ∀ (xs : List α) (fs : FS), (∀ x ∈ xs, (step fs x).1 = none) →
      firstSome fs xs step = (none, fs) := by
  intro xs
  induction xs with
  | nil => intro fs _; rfl
  | cons x xs ih =>
    intro fs hall
    have hx1 : (step fs x).1 = none := hall x (by simp)
    have hx2 : (step fs x).2 = fs := hframe fs x
    have hstep : step fs x = (none, fs) := by
      calc step fs x = ((step fs x).1, (step fs x).2) := rfl
        _ = (none, fs) := by rw [hx1, hx2]
    unfold firstSome
    rw [hstep]
    exact ih fs (fun y hy => hall y (by simp [hy]))

/-! ### serve_stem and load_project never write: frame lemmas -/
theorem orElseS_snd {β : Type} {p : Option β × FS} {k : FS → Option β × FS} {fs0 : FS}
    (hp : p.2 = fs0) (hk : ∀ fs, (k fs).2 = fs) : (orElseS p k).2 = fs0 := by
  rcases p with ⟨r, fs⟩
  cases r with
  | some r => simpa using hp
  | none =>
    simp only [orElseS]
    rw [hk fs]
    simpa using hp

theorem probeExtStep_snd (dir : Path) (s : String) (fs : FS) (ext : String) :
    (probeExtStep dir s fs ext).2 = fs := rfl

theorem probeExtsS_snd (fs : FS) (dir : Path) (s : String) :
    (probeExtsS fs dir s).2 = fs :=
  firstSome_snd _ (probeExtStep_snd dir s) stemExts fs

theorem uploadMixStep_snd (j : String) (fs : FS) (f : String) :
    (uploadMixStep j fs f).2 = fs := by
  unfold uploadMixStep
  split <;> rfl

theorem mixFolderStep_snd (j : String) (fs : FS) (mf : String) :
    (mixFolderStep j fs mf).2 = fs := by
  unfold mixFolderStep
  simp only [existsS]
  split
  · rfl
  · exact firstSome_snd _ (fun fs ext => rfl) _ fs

theorem mixBlockS_snd (fs : FS) (j s : String) : (mixBlockS fs j s).2 = fs := by
  unfold mixBlockS
  split
  · exact orElseS_snd (firstSome_snd _ (uploadMixStep_snd j) _ fs)
      (fun fs => firstSome_snd _ (mixFolderStep_snd j) _ fs)
  · rfl

theorem parentFrameStep_snd (j p s : String) (fs : FS) (fr : Frame) :
    (parentFrameStep j p s fs fr).2 = fs := by
  unfold parentFrameStep
  split
  · simp only [existsS]
    split
    · exact probeExtsS_snd fs _ s
    · rfl
  · rfl

theorem legacyDirStep_snd (sub j s : String) (fs : FS) :
    (legacyDirStep sub j s fs).2 = fs := by
  unfold legacyDirStep
  simp only [existsS]
  split
  · exact probeExtsS_snd fs _ s
  · rfl

theorem parentBlockS_snd (fs : FS) (j p s : String) :
    (parentBlockS fs j p s).2 = fs := by
  unfold parentBlockS
  simp only [walkSepS]
  refine orElseS_snd (firstSome_snd _ (parentFrameStep_snd j p s) _ fs) ?_
  intro fs
  refine orElseS_snd ?_ ?_
  · split
    · exact legacyDirStep_snd _ j s fs
    · rfl
  · intro fs
    split
    · exact legacyDirStep_snd _ j s fs
    · rfl

theorem baseDirStep_snd (s : String) (fs : FS) (d : Path) :
    (baseDirStep s fs d).2 = fs := by
  unfold baseDirStep
  simp only [existsS]
  split
  · exact probeExtsS_snd fs d s
  · rfl

theorem walkProbeStep_snd (j s : String) (fs : FS) (fr : Frame) :
    (walkProbeStep j s fs fr).2 = fs := by
  unfold walkProbeStep
  split
  · exact probeExtsS_snd fs _ s
  · rfl

theorem genericBlockS_snd (fs : FS) (j s : String) :
    (genericBlockS fs j s).2 = fs := by
  unfold genericBlockS
  refine orElseS_snd (firstSome_snd _ (baseDirStep_snd s) _ fs) ?_
  intro fs
  simp only [walkSepS]
  exact firstSome_snd _ (walkProbeStep_snd j s) _ fs

theorem parentCaseS_snd (o : Option String) (j s : String) (fs : FS) :
    (parentCaseS o j s fs).2 = fs := by
  cases o with
  | none => rfl
  | some p => exact parentBlockS_snd fs j p s

theorem match404_snd (p : Option Res × FS) (msg : String) (fs0 : FS)
    (hp : p.2 = fs0) :
    (match p with
     | (some r, fs) => (r, fs)
     | (none, fs) => (Res.err 404 msg, fs)).2 = fs0 := by
  rcases p with ⟨r, fs⟩
  cases r <;> simpa using hp

/-- serve_stem performs no filesystem mutation. -/
theorem serveStemS_snd (fs : FS) (j sp : String) : (serveStemS fs j sp).2 = fs := by
  unfold serveStemS
  exact match404_snd _ _ _
    (orElseS_snd (mixBlockS_snd fs j _)
      (fun fs => orElseS_snd (parentCaseS_snd _ j _ fs)
        (fun fs => genericBlockS_snd fs j _)))

theorem bindS_snd {α β : Type} {p : α × FS} {k : α → FS → β × FS} {fs0 : FS}
    (hp : p.2 = fs0) (hk : ∀ a fs, (k a fs).2 = fs) : (bindS p k).2 = fs0 :=
  (hk p.1 p.2).trans hp

theorem bindS_fst {α β : Type} (P : β → Prop) (p : α × FS) (k : α → FS → β × FS)
    (hk : ∀ a fs, P (k a fs).1) : P (bindS p k).1 := hk p.1 p.2

theorem stemScanStep_snd (fp : Path) (fs : FS)
    (st : List String × List (String × Path) × Option Path) (item : String) :
    (stemScanStep fp fs st item).2 = fs := by
  unfold stemScanStep
  dsimp only [isFileS]
  repeat' split
  all_goals rfl

theorem childScanInner_snd (d : Path) (j par : String) (fs : FS)
    (kacc : List JVal) (ci : String) : (childScanInner d j par fs kacc ci).2 = fs := by
  unfold childScanInner
  dsimp only [isFileS]
  repeat' split
  all_goals rfl

theorem childScanStep_snd (fp : Path) (j : String) (fs : FS)
    (acc : List (String × List JVal)) (item : String) :
    (childScanStep fp j fs acc item).2 = fs := by
  unfold childScanStep
  refine bindS_snd rfl ?_
  intro isd fs
  split
  · refine bindS_snd rfl ?_
    intro children fs
    exact bindS_snd (foldS_snd _ (childScanInner_snd _ j item) _ _ _)
      (fun kids fs => rfl)
  · rfl

theorem drumScanInner_snd (d : Path) (j : String) (fs : FS)
    (kacc : List JVal) (item : String) : (drumScanInner d j fs kacc item).2 = fs := by
  unfold drumScanInner
  dsimp only [isFileS]
  repeat' split
  all_goals rfl

theorem vocalScanInner_snd (d : Path) (j : String) (fs : FS)
    (kacc : List JVal) (item : String) : (vocalScanInner d j fs kacc item).2 = fs := by
  unfold vocalScanInner
  dsimp only [isFileS]
  repeat' split
  all_goals rfl

/-- load_project performs no filesystem mutation. -/
theorem loadProjectS_snd (fs : FS) (fp : Path) : (loadProjectS fs fp).2 = fs := by
  unfold loadProjectS
  split
  · rfl
  · refine bindS_snd rfl ?_
    intro ex fs
    split
    · rfl
    · refine bindS_snd rfl ?_
      intro isd fs
      split
      · rfl
      · refine bindS_snd rfl ?_
        intro items fs
        refine bindS_snd (foldS_snd _ (stemScanStep_snd _) _ _ _) ?_
        intro scan fs
        refine bindS_snd (foldS_snd _ (childScanStep_snd _ _) _ _ _) ?_
        intro cs1 fs
        refine bindS_snd rfl ?_
        intro dex fs
        refine bindS_snd ?_ ?_
        · split <;> rfl
        · intro disd fs
          refine bindS_snd ?_ ?_
          · split
            · refine bindS_snd rfl ?_
              intro children fs
              exact bindS_snd (foldS_snd _ (drumScanInner_snd _ _) _ _ _)
                (fun kids fs => rfl)
            · rfl
          · intro cs2 fs
            refine bindS_snd rfl ?_
            intro vex fs
            refine bindS_snd ?_ ?_
            · split <;> rfl
            · intro visd fs
              refine bindS_snd ?_ ?_
              · split
                · refine bindS_snd rfl ?_
                  intro children fs
                  exact bindS_snd (foldS_snd _ (vocalScanInner_snd _ _) _ _ _)
                    (fun kids fs => rfl)
                · rfl
              · intro cs3 fs
                refine bindS_snd rfl ?_
                intro lex fs
                refine bindS_snd ?_ ?_
                · split
                  · refine bindS_snd rfl ?_
                    intro children fs
                    exact bindS_snd (foldS_snd _ (drumScanInner_snd _ _) _ _ _)
                      (fun kids fs => rfl)
                  · rfl
                · intro cs4 fs
                  refine bindS_snd rfl ?_
                  intro lvex fs
                  refine bindS_snd ?_ ?_
                  · split
                    · refine bindS_snd rfl ?_
                      intro children fs
                      exact bindS_snd (foldS_snd _ (vocalScanInner_snd _ _) _ _ _)
                        (fun kids fs => rfl)
                    · rfl
                  · intro cs5 fs
                    refine bindS_snd ?_ (fun mixVal fs => rfl)
                    split
                    · rfl
                    · exact bindS_snd rfl (fun ul fs => rfl)

/-! ### Claim C7: resolution is side-effect-free -/
/-- C7: serving a stem file and loading a project manifest never
create, move or delete anything: the filesystem after either operation
equals the filesystem before it, for every job id, stem path and
project path. -/
theorem C7_resolution_side_effect_free
    (fs : FS) (jobId stemPath : String) (fp : Path) :
    (serveStemS fs jobId stemPath).2 = fs ∧ (loadProjectS fs fp).2 = fs :=
  ⟨serveStemS_snd fs jobId stemPath, loadProjectS_snd fs fp⟩

/-! ### Claim C2: the vocal blend formula -/
theorem zipAdd_half (c : Sig) :
    (List.zipWith (fun x y => x + y) c c).map
      (fun x => x / (((1 : ℕ) + 1 : ℕ) : ℚ)) = c := by
  induction c with
  | nil => rfl
  | cons a t ih =>
    simp only [List.zipWith_cons_cons, List.map_cons, ih]
    have : a + a = ((((1 : ℕ) + 1 : ℕ) : ℚ)) * a := by push_cast; ring
    rw [this, mul_div_cancel_left₀]
    norm_num

/-- The mono downmix of two identical channels is that channel. -/
theorem monoOf_pair (c : Sig) : monoOf [c, c] = c := by
  unfold monoOf
  simpa [addSig] using zipAdd_half c

theorem vocalsDSP_toy_eval : (vocalsDSP toyLib [[2, 1], [0, 1]]).1 = [1, 1] := by
  norm_num [vocalsDSP, toyLib, monoOf, addSig, smulSig, normalizeSig, peakAbs,
    zeroFramesWhere, zeroColsAux, notMask]

theorem claimedLead_toy_eval :
    claimedVocalLead toyLib [[2, 1], [0, 1]] = [1, 7/10] := by
  norm_num [claimedVocalLead, toyLib, centerOf, monoOf, addSig, smulSig,
    normalizeSig, peakAbs, zeroFramesWhere, zeroColsAux, notMask]
  have habs : |(7 : ℚ) / 10| = 7 / 10 := abs_of_pos (by norm_num)
  rw [habs]
  have hsup : (1 : ℚ) ⊔ 7 / 10 = 1 := by
    rw [sup_eq_left]
    norm_num
  rw [hsup]
  norm_num

/-- C2 counterexample: the specified formula blends the frame-masked
HARMONIC part into the lead, but the code blends the frame-masked mono
downmix; on a concrete input through a concrete library instance the
two differ ([1, 1] against [1, 7/10]). -/
theorem C2_spec_formula_counterexample :
    (vocalsDSP toyLib [[2, 1], [0, 1]]).1
      ≠ claimedVocalLead toyLib [[2, 1], [0, 1]] := by
  rw [vocalsDSP_toy_eval, claimedLead_toy_eval]
  intro h
  have h2 := (List.cons.inj h).2
  have h3 := (List.cons.inj h2).1
  norm_num at h3

/-- C2 amended: the produced lead equals the peak-normalization of 0.7
times the center channel plus 0.3 times the frame-masked mono downmix
(inverted from the masked STFT of the downmix itself, not of its
harmonic part); the backing is 0.7 times the side channel plus 0.3
times the masked backing signal; the harmonic-percussive decomposition
is computed but its result never influences the output. -/
theorem C2_vocal_blend_amended (L : Lib) (y : List Sig) :
    (vocalsDSP L y).1
      = normalizeSig (addSig (smulSig (7/10) (centerOf y))
          (smulSig (3/10) (maskedMonoLead L y)))
    ∧ (vocalsDSP L y).2
      = normalizeSig (addSig (smulSig (7/10) (sideOf y))
          (smulSig (3/10) (maskedMonoBacking L y)))
    ∧ (∀ h, vocalsDSP { L with hpss := h } y = vocalsDSP L y) := by
  refine ⟨?_, rfl, fun h => rfl⟩
  show normalizeSig (addSig (smulSig (7/10) (monoOf [centerOf y, centerOf y]))
    (smulSig (3/10) (maskedMonoLead L y))) = _
  rw [monoOf_pair]

/-! ### Claims C3 and C9: refinement failure and drum-child shape -/
theorem writeLoop_lengths (wok : Path → Bool) :
    ∀ (parts : List (String × Sig)) (fs : FS) (dir : Path) (j : String),
      ((writeLoop wok fs dir j parts).1).1.length
        = ((writeLoop wok fs dir j parts).1).2.1.length := by
  intro parts
  induction parts with
  | nil => intro fs dir j; rfl
  | cons hd tl ih =>
    intro fs dir j
    rcases hd with ⟨name, sig⟩
    unfold writeLoop
    dsimp only
    by_cases hw : wok (dir ++ [name ++ ".wav"]) = true
    · rw [if_pos hw]
      rcases hrec : writeLoop wok (writeFileAt fs dir (name ++ ".wav")) dir j tl
        with ⟨⟨objs, paths, okAll⟩, fs1⟩
      simp only [hrec]
      have h2 := ih (writeFileAt fs dir (name ++ ".wav")) dir j
      rw [hrec] at h2
      simpa using h2
    · rw [if_neg hw]
      rfl

theorem writeLoop_ok_objs (wok : Path → Bool) :
    ∀ (parts : List (String × Sig)) (fs : FS) (dir : Path) (j : String),
      ((writeLoop wok fs dir j parts).1).2.2 = true →
      ((writeLoop wok fs dir j parts).1).1
        = parts.map (fun pr => childStemObj j "drums" pr.1 (dir ++ [pr.1 ++ ".wav"])) := by
  intro parts
  induction parts with
  | nil => intro fs dir j _; rfl
  | cons hd tl ih =>
    intro fs dir j hok
    rcases hd with ⟨name, sig⟩
    unfold writeLoop at hok ⊢
    dsimp only at hok ⊢
    by_cases hw : wok (dir ++ [name ++ ".wav"]) = true
    · rw [if_pos hw] at hok ⊢
      rcases hrec : writeLoop wok (writeFileAt fs dir (name ++ ".wav")) dir j tl
        with ⟨⟨objs, paths, okAll⟩, fs1⟩
      rw [hrec] at hok
      simp only at hok
      have h2 := ih (writeFileAt fs dir (name ++ ".wav")) dir j
      rw [hrec] at h2
      have hobjs := h2 (by simpa using hok)
      simp only [hrec, List.map_cons]
      simp only at hobjs
      rw [hobjs]
    · rw [if_neg hw] at hok
      simp at hok

/-- C3: a refinement invocation that wrote no valid output file never
answers with a success manifest: whenever the list of written outputs
is empty, both refiners return an error result. -/
theorem C3_zero_outputs_error (L : Lib) (wok : Path → Bool) (fs : FS)
    (jobId : String) :
    ((splitVocalsRun L wok fs jobId).written = [] →
      (splitVocalsRun L wok fs jobId).res.isErr = true)
    ∧ ((splitDrumsRun L wok fs jobId).written = [] →
      (splitDrumsRun L wok fs jobId).res.isErr = true) := by
  constructor
  · unfold splitVocalsRun
    rcases hfind : findStemFileS fs jobId "vocals.mp3" with ⟨o, fs2⟩
    cases o with
    | none => intro _; rfl
    | some sp =>
      dsimp only
      by_cases hw1 : wok (sp.2 ++ ["vocals"] ++ ["lead.wav"]) = true
      · rw [if_pos hw1]
        by_cases hw2 : wok (sp.2 ++ ["vocals"] ++ ["backing.wav"]) = true
        · rw [if_pos hw2]
          intro h
          simp at h
        · rw [if_neg hw2]
          intro h
          simp at h
      · rw [if_neg hw1]
        intro _
        rfl
  · unfold splitDrumsRun
    rcases hfind : findStemFileS fs jobId "drums.mp3" with ⟨o, fs2⟩
    cases o with
    | none => intro _; rfl
    | some sp =>
      dsimp only
      rcases hwl : writeLoop wok (mkdirAll fs2 (sp.2 ++ ["drums"])) (sp.2 ++ ["drums"])
          jobId (drumsDSP L (L.loadMono sp.1)) with ⟨⟨objs, paths, okAll⟩, fs3⟩
      simp only [hwl]
      cases okAll with
      | false => intro _; rfl
      | true =>
        simp only [Bool.not_true, if_neg (by simp : ¬ (false = true))]
        by_cases hemp : objs.isEmpty = true
        · rw [if_pos hemp]
          intro _
          rfl
        · rw [if_neg hemp]
          intro hpaths
          exfalso
          simp only at hpaths
          have hlen := writeLoop_lengths wok (drumsDSP L (L.loadMono sp.1))
            (mkdirAll fs2 (sp.2 ++ ["drums"])) (sp.2 ++ ["drums"]) jobId
          rw [hwl] at hlen
          simp only at hlen
          rw [hpaths] at hlen
          simp at hlen
          simp [List.isEmpty_iff, hlen] at hemp

/-- The four band names the drum refiner computes, in order. -/
theorem drumsDSP_names (L : Lib) (y : Sig) :
    (drumsDSP L y).map (fun pr => pr.1) = ["kick", "snare", "hihat", "cymbals"] := rfl

theorem drumChildNames_manifest (jobId : String) (objs : List JVal) :
    drumChildNames (JVal.obj
      [("status", JVal.str "success"),
       ("job_id", JVal.str jobId),
       ("splitter", JVal.str "drum_separation"),
       ("model", JVal.str "htdemucs_6s"),
       ("child_splits", JVal.obj [("drums", JVal.arr objs)])])
      = objs.filterMap (fun o =>
          match jGet o "name" with
          | some (JVal.str s) => some s
          | _ => none) := by
  simp [drumChildNames, jGet]

/-- C9: a drum refinement that reaches the output stage without an
exception registers exactly the four children kick, snare, hihat and
cymbals, so the empty-child-list 400 branch is unreachable. -/
theorem C9_drum_children_complete (L : Lib) (wok : Path → Bool) (fs : FS)
    (jobId : String) :
    (splitDrumsRun L wok fs jobId).res ≠ Res.err 400 noDrumPartsMsg
    ∧ (∀ m, (splitDrumsRun L wok fs jobId).res = Res.ok m →
        drumChildNames m = ["kick", "snare", "hihat", "cymbals"]) := by
  unfold splitDrumsRun
  rcases hfind : findStemFileS fs jobId "drums.mp3" with ⟨o, fs2⟩
  cases o with
  | none =>
    constructor
    · intro h
      simp [noDrumPartsMsg] at h
    · intro m h
      simp at h
  | some sp =>
    dsimp only
    rcases hwl : writeLoop wok (mkdirAll fs2 (sp.2 ++ ["drums"])) (sp.2 ++ ["drums"])
        jobId (drumsDSP L (L.loadMono sp.1)) with ⟨⟨objs, paths, okAll⟩, fs3⟩
    simp only [hwl]
    cases okAll with
    | false =>
      constructor
      · intro h
        simp [noDrumPartsMsg] at h
      · intro m h
        simp at h
    | true =>
      simp only [Bool.not_true, if_neg (by simp : ¬ (false = true))]
      have hobjs := writeLoop_ok_objs wok (drumsDSP L (L.loadMono sp.1))
        (mkdirAll fs2 (sp.2 ++ ["drums"])) (sp.2 ++ ["drums"]) jobId
      rw [hwl] at hobjs
      have hobjs2 := hobjs (by simp)
      simp only at hobjs2
      have hne : objs.isEmpty = false := by
        rw [hobjs2]
        simp [drumsDSP]
      rw [if_neg (by simp [hne] : ¬ (objs.isEmpty = true))]
      constructor
      · intro h
        simp at h
      · intro m hm
        simp only [Res.ok.injEq] at hm
        subst hm
        rw [drumChildNames_manifest, hobjs2, List.filterMap_map]
        simp [childStemObj, jGet, drumsDSP]

/-- Witness for C3 at a concrete project whose writes all fail: both
refiners wrote nothing and both answered with an error. -/
theorem C3_zero_outputs_error_witness :
    (splitVocalsRun toyLib (fun _ => false) fsSong1 "song1").written = []
    ∧ (splitVocalsRun toyLib (fun _ => false) fsSong1 "song1").res.isErr = true
    ∧ (splitDrumsRun toyLib (fun _ => false) fsSong1 "song1").written = []
    ∧ (splitDrumsRun toyLib (fun _ => false) fsSong1 "song1").res.isErr = true :=
  ⟨rfl, (C3_zero_outputs_error toyLib (fun _ => false) fsSong1 "song1").1 rfl,
   rfl, (C3_zero_outputs_error toyLib (fun _ => false) fsSong1 "song1").2 rfl⟩

/-- Witness for C9 at a concrete successful drum refinement. -/
theorem C9_drum_children_complete_witness :
    (splitDrumsRun toyLib (fun _ => true) fsSong1 "song1").res
      ≠ Res.err 400 noDrumPartsMsg
    ∧ drumChildNames
        (splitDrumsRun toyLib (fun _ => true) fsSong1 "song1").res.manifest
      = ["kick", "snare", "hihat", "cymbals"] :=
  ⟨(C9_drum_children_complete toyLib (fun _ => true) fsSong1 "song1").1,
   (C9_drum_children_complete toyLib (fun _ => true) fsSong1 "song1").2
     (splitDrumsRun toyLib (fun _ => true) fsSong1 "song1").res.manifest rfl⟩

/-! ### Claim C5: manifest top-level keys -/

theorem loadProjectS_ok_keys (fs : FS) (fp : Path) :
    ∀ m, (loadProjectS fs fp).1 = Res.ok m → jKeys m = manifestKeys8 := by
  unfold loadProjectS
  split
  · intro m h; simp at h
  · refine bindS_fst (fun r => ∀ m, r = Res.ok m → jKeys m = manifestKeys8) _ _ ?_
    intro ex fs
    split
    · intro m h; simp at h
    · refine bindS_fst (fun r => ∀ m, r = Res.ok m → jKeys m = manifestKeys8) _ _ ?_
      intro isd fs
      split
      · intro m h; simp at h
      · refine bindS_fst (fun r => ∀ m, r = Res.ok m → jKeys m = manifestKeys8) _ _ ?_
        intro items fs
        refine bindS_fst (fun r => ∀ m, r = Res.ok m → jKeys m = manifestKeys8) _ _ ?_
        intro scan fs
        refine bindS_fst (fun r => ∀ m, r = Res.ok m → jKeys m = manifestKeys8) _ _ ?_
        intro cs1 fs
        refine bindS_fst (fun r => ∀ m, r = Res.ok m → jKeys m = manifestKeys8) _ _ ?_
        intro dex fs
        refine bindS_fst (fun r => ∀ m, r = Res.ok m → jKeys m = manifestKeys8) _ _ ?_
        intro disd fs
        refine bindS_fst (fun r => ∀ m, r = Res.ok m → jKeys m = manifestKeys8) _ _ ?_
        intro cs2 fs
        refine bindS_fst (fun r => ∀ m, r = Res.ok m → jKeys m = manifestKeys8) _ _ ?_
        intro vex fs
        refine bindS_fst (fun r => ∀ m, r = Res.ok m → jKeys m = manifestKeys8) _ _ ?_
        intro visd fs
        refine bindS_fst (fun r => ∀ m, r = Res.ok m → jKeys m = manifestKeys8) _ _ ?_
        intro cs3 fs
        refine bindS_fst (fun r => ∀ m, r = Res.ok m → jKeys m = manifestKeys8) _ _ ?_
        intro lex fs
        refine bindS_fst (fun r => ∀ m, r = Res.ok m → jKeys m = manifestKeys8) _ _ ?_
        intro cs4 fs
        refine bindS_fst (fun r => ∀ m, r = Res.ok m → jKeys m = manifestKeys8) _ _ ?_
        intro lvex fs
        refine bindS_fst (fun r => ∀ m, r = Res.ok m → jKeys m = manifestKeys8) _ _ ?_
        intro cs5 fs
        refine bindS_fst (fun r => ∀ m, r = Res.ok m → jKeys m = manifestKeys8) _ _ ?_
        intro mixVal fs
        intro m h
        simp only [Res.ok.injEq] at h
        subst h
        rfl

theorem splitVocalsRun_ok_keys (L : Lib) (wok : Path → Bool) (fs : FS)
    (jobId : String) :
    ∀ m, (splitVocalsRun L wok fs jobId).res = Res.ok m → jKeys m = manifestKeys5 := by
  unfold splitVocalsRun
  rcases hfind : findStemFileS fs jobId "vocals.mp3" with ⟨o, fs2⟩
  cases o with
  | none => intro m h; simp at h
  | some sp =>
    dsimp only
    by_cases hw1 : wok (sp.2 ++ ["vocals"] ++ ["lead.wav"]) = true
    · rw [if_pos hw1]
      by_cases hw2 : wok (sp.2 ++ ["vocals"] ++ ["backing.wav"]) = true
      · rw [if_pos hw2]
        intro m h
        simp only [Res.ok.injEq] at h
        subst h
        rfl
      · rw [if_neg hw2]
        intro m h
        simp at h
    · rw [if_neg hw1]
      intro m h
      simp at h

theorem splitDrumsRun_ok_keys (L : Lib) (wok : Path → Bool) (fs : FS)
    (jobId : String) :
    ∀ m, (splitDrumsRun L wok fs jobId).res = Res.ok m → jKeys m = manifestKeys5 := by
  unfold splitDrumsRun
  rcases hfind : findStemFileS fs jobId "drums.mp3" with ⟨o, fs2⟩
  cases o with
  | none => intro m h; simp at h
  | some sp =>
    dsimp only
    rcases hwl : writeLoop wok (mkdirAll fs2 (sp.2 ++ ["drums"])) (sp.2 ++ ["drums"])
        jobId (drumsDSP L (L.loadMono sp.1)) with ⟨⟨objs, paths, okAll⟩, fs3⟩
    simp only [hwl]
    cases okAll with
    | false => intro m h; simp at h
    | true =>
      simp only [Bool.not_true, if_neg (by simp : ¬ (false = true))]
      by_cases hemp : objs.isEmpty = true
      · rw [if_pos hemp]
        intro m h
        simp at h
      · rw [if_neg hemp]
        intro m h
        simp only [Res.ok.injEq] at h
        subst h
        rfl

/-- C5 counterexample: a successful vocal refinement answers with a
manifest that omits the output_dir key (and stems and mix), so not
every returned manifest carries all eight top-level keys. -/
theorem C5_manifest_keys_counterexample :
    (splitVocalsRun toyLib (fun _ => true) fsSong1 "song1").res.isOk = true
    ∧ (jKeys
        (splitVocalsRun toyLib (fun _ => true) fsSong1 "song1").res.manifest).contains
        "output_dir" = false := ⟨rfl, rfl⟩

/-- C5 amended: the separation manifest and the load-project manifest
always carry the eight keys status, job_id, splitter, model,
output_dir, stems, mix and child_splits with explicit defaults, but
the vocal and drum refinement manifests carry exactly status, job_id,
splitter, model and child_splits — output_dir, stems and mix are
omitted there. -/
theorem C5_manifest_keys_amended :
    (∀ (fs : FS) (jobId splitter model : String) (r : RunResult),
      jKeys (buildSepManifest fs jobId splitter model r) = manifestKeys8)
    ∧ (∀ (fs : FS) (fp : Path) m,
        (loadProjectS fs fp).1 = Res.ok m → jKeys m = manifestKeys8)
    ∧ (∀ (L : Lib) (wok : Path → Bool) (fs : FS) (jobId : String) m,
        (splitVocalsRun L wok fs jobId).res = Res.ok m → jKeys m = manifestKeys5)
    ∧ (∀ (L : Lib) (wok : Path → Bool) (fs : FS) (jobId : String) m,
        (splitDrumsRun L wok fs jobId).res = Res.ok m → jKeys m = manifestKeys5) :=
  ⟨fun _ _ _ _ _ => rfl,
   fun fs fp => loadProjectS_ok_keys fs fp,
   fun L wok fs j => splitVocalsRun_ok_keys L wok fs j,
   fun L wok fs j => splitDrumsRun_ok_keys L wok fs j⟩

/-- Witness for C5 amended at concrete runs. -/
theorem C5_manifest_keys_amended_witness :
    jKeys ((loadProjectS fsSong1 ["separated", "htdemucs", "song1"]).1.manifest)
      = manifestKeys8
    ∧ jKeys ((splitDrumsRun toyLib (fun _ => true) fsSong1 "song1").res.manifest)
      = manifestKeys5 :=
  ⟨C5_manifest_keys_amended.2.1 fsSong1 ["separated", "htdemucs", "song1"]
     (loadProjectS fsSong1 ["separated", "htdemucs", "song1"]).1.manifest rfl,
   C5_manifest_keys_amended.2.2.2 toyLib (fun _ => true) fsSong1 "song1"
     (splitDrumsRun toyLib (fun _ => true) fsSong1 "song1").res.manifest rfl⟩

/-! ### Claim C4: extension precedence -/
theorem firstSome_probe_find (dir : Path) (s : String) :
    ∀ (xs : List String) (fs : FS),
      (firstSome fs xs (probeExtStep dir s)).1
        = (xs.find? (fun e => pExists fs (dir ++ [s ++ e]))).map
            (fun e => Res.serve dir (s ++ e)) := by
  intro xs
  induction xs with
  | nil => intro fs; rfl
  | cons x t ih =>
    intro fs
    unfold firstSome probeExtStep
    dsimp only [existsS]
    by_cases hx : pExists fs (dir ++ [s ++ x]) = true
    · rw [if_pos hx]
      simp [List.find?, hx]
    · have hx2 : pExists fs (dir ++ [s ++ x]) = false := by simpa using hx
      rw [if_neg hx]
      simp only [List.find?, hx2]
      exact ih fs

/-- The probe of a directory is the first extension, in list order,
whose file exists. -/
theorem probeExtsS_fst_find (fs : FS) (dir : Path) (s : String) :
    (probeExtsS fs dir s).1
      = (stemExts.find? (fun e => pExists fs (dir ++ [s ++ e]))).map
          (fun e => Res.serve dir (s ++ e)) :=
  firstSome_probe_find dir s stemExts fs

/-- reductions of the serve_stem prelude for a bare stem name with no
slash: no parent directory, and the mix block falls through. -/
theorem mixBlockS_not_mix (fs : FS) (jobId s : String) (h : (s == "mix") = false) :
    mixBlockS fs jobId s = (none, fs) := by
  unfold mixBlockS
  rw [h]
  rfl

/-- C4: the candidate extensions of top-level stem resolution are
probed in the fixed order mp3, wav, flac, m4a, ogg with the first
existing file winning; in particular a directory holding both
vocals.wav and vocals.mp3 serves the mp3. -/
theorem C4_extension_precedence :
    stemExts = [".mp3", ".wav", ".flac", ".m4a", ".ogg"]
    ∧ (∀ (fs : FS) (dir : Path) (s : String),
        (probeExtsS fs dir s).1
          = (stemExts.find? (fun e => pExists fs (dir ++ [s ++ e]))).map
              (fun e => Res.serve dir (s ++ e)))
    ∧ (∀ (fs : FS) (jobId : String),
        pExists fs (sepPath ++ ["htdemucs_6s", jobId]) = true →
        pExists fs ((sepPath ++ ["htdemucs_6s", jobId]) ++ ["vocals.mp3"]) = true →
        pExists fs ((sepPath ++ ["htdemucs_6s", jobId]) ++ ["vocals.wav"]) = true →
        (serveStemS fs jobId "vocals").1
          = Res.serve (sepPath ++ ["htdemucs_6s", jobId]) "vocals.mp3") := by
  refine ⟨rfl, probeExtsS_fst_find, ?_⟩
  intro fs jobId hdir hmp3 _
  unfold serveStemS
  have hsplit : splitOnSlash "vocals" = ["vocals"] := rfl
  rw [hsplit]
  dsimp only
  rw [show (["vocals"].getLastD "vocals") = "vocals" from rfl,
    show (["vocals"].headD "") = "vocals" from rfl,
    show (["vocals"].length) = 1 from rfl]
  rw [mixBlockS_not_mix fs jobId "vocals" rfl]
  show (match
      orElseS (parentCaseS (if (1 > 1) then some "vocals" else none) jobId "vocals" fs)
        (fun fs => genericBlockS fs jobId "vocals")
    with
    | (some r, fs) => (r, fs)
    | (none, fs) => (Res.err 404 (stemNotFoundMsg jobId "vocals"), fs)).1 = _
  rw [show (if (1 > 1) then some "vocals" else none) = (none : Option String)
    from by norm_num]
  show (match genericBlockS fs jobId "vocals" with
    | (some r, fs) => (r, fs)
    | (none, fs) => (Res.err 404 (stemNotFoundMsg jobId "vocals"), fs)).1 = _
  unfold genericBlockS
  rw [show possibleBaseDirs jobId
    = [sepPath ++ ["htdemucs_6s", jobId], sepPath ++ ["htdemucs_ft", jobId],
       sepPath ++ ["htdemucs", jobId], sepPath ++ ["spleeter", jobId]] from rfl]
  unfold firstSome
  unfold baseDirStep
  dsimp only [existsS]
  rw [if_pos hdir]
  rcases hpe : probeExtsS fs (sepPath ++ ["htdemucs_6s", jobId]) "vocals" with ⟨o, fs1⟩
  have ho : o = some (Res.serve (sepPath ++ ["htdemucs_6s", jobId]) "vocals.mp3") := by
    have h1 := probeExtsS_fst_find fs (sepPath ++ ["htdemucs_6s", jobId]) "vocals"
    rw [hpe] at h1
    simp only at h1
    rw [h1]
    have hfind : stemExts.find?
        (fun e => pExists fs ((sepPath ++ ["htdemucs_6s", jobId]) ++ ["vocals" ++ e]))
        = some ".mp3" := by
      show List.find? _ (".mp3" :: [".wav", ".flac", ".m4a", ".ogg"]) = some ".mp3"
      rw [List.find?_cons_of_pos]
      exact hmp3
    rw [hfind]
    rfl
  rw [ho]
  rfl

/-- Witness for C4 at the concrete tree fsBoth. -/
theorem C4_extension_precedence_witness :
    pExists fsBoth (sepPath ++ ["htdemucs_6s", "trk"]) = true
    ∧ pExists fsBoth ((sepPath ++ ["htdemucs_6s", "trk"]) ++ ["vocals.mp3"]) = true
    ∧ pExists fsBoth ((sepPath ++ ["htdemucs_6s", "trk"]) ++ ["vocals.wav"]) = true
    ∧ (serveStemS fsBoth "trk" "vocals").1
        = Res.serve (sepPath ++ ["htdemucs_6s", "trk"]) "vocals.mp3" :=
  ⟨rfl, rfl, rfl, C4_extension_precedence.2.2 fsBoth "trk" rfl rfl rfl⟩

/-! ### Claim C8: the mix falls through to generic resolution -/
theorem firstSome_fst_some {α β : Type} (step : FS → α → Option β × FS)
    (P : β → Prop) :
    ∀ (xs : List α) (fs : FS),
      (∀ fs2 x r, x ∈ xs → (step fs2 x).1 = some r → P r) →
      ∀ r, (firstSome fs xs step).1 = some r → P r := by
  intro xs
  induction xs with
  | nil => intro fs _ r h; simp [firstSome] at h
  | cons x t ih =>
    intro fs hstep r h
    unfold firstSome at h
    rcases hs : step fs x with ⟨o, fs1⟩
    rw [hs] at h
    cases o with
    | some r2 =>
      have hr : r2 = r := by simpa using h
      subst hr
      exact hstep fs x r2 (by simp) (by rw [hs])
    | none =>
      simp only at h
      exact ih fs1 (fun fs2 y r2 hy => hstep fs2 y r2 (by simp [hy])) r h

theorem probeExtsS_some_shape (fs : FS) (dir : Path) (s : String) :
    ∀ r, (probeExtsS fs dir s).1 = some r →
      ∃ e, e ∈ stemExts ∧ r = Res.serve dir (s ++ e) := by
  intro r h
  rw [probeExtsS_fst_find] at h
  rcases hfind : stemExts.find? (fun e => pExists fs (dir ++ [s ++ e])) with _ | e
  · rw [hfind] at h; simp at h
  · rw [hfind] at h
    exact ⟨e, List.mem_of_find?_eq_some hfind, by simpa using h.symm⟩

theorem baseDirStep_some_shape (s : String) (fs : FS) (d : Path) :
    ∀ r, (baseDirStep s fs d).1 = some r → ∃ dd f, r = Res.serve dd f := by
  intro r h
  unfold baseDirStep at h
  dsimp only [existsS] at h
  by_cases hx : pExists fs d = true
  · rw [if_pos hx] at h
    rcases probeExtsS_some_shape fs d s r h with ⟨e, _, he⟩
    exact ⟨d, s ++ e, he⟩
  · rw [if_neg hx] at h
    simp at h

theorem walkProbeStep_some_shape (j s : String) (fs : FS) (fr : Frame) :
    ∀ r, (walkProbeStep j s fs fr).1 = some r → ∃ dd f, r = Res.serve dd f := by
  intro r h
  unfold walkProbeStep at h
  by_cases hx : strContains (pathStr fr.root) j = true
  · rw [if_pos hx] at h
    rcases probeExtsS_some_shape fs fr.root s r h with ⟨e, _, he⟩
    exact ⟨fr.root, s ++ e, he⟩
  · rw [if_neg hx] at h
    simp at h

/-- Everything generic resolution can answer is a served file. -/
theorem genericBlockS_some_serve (fs : FS) (j s : String) :
    ∀ r, (genericBlockS fs j s).1 = some r → ∃ dd f, r = Res.serve dd f := by
  intro r h
  unfold genericBlockS at h
  rcases hA : firstSome fs (possibleBaseDirs j) (baseDirStep s) with ⟨o, fs1⟩
  rw [hA] at h
  cases o with
  | some r0 =>
    simp only [orElseS] at h
    have hr : r0 = r := by simpa using h
    subst hr
    refine firstSome_fst_some (baseDirStep s)
      (fun rr => ∃ dd f, rr = Res.serve dd f) (possibleBaseDirs j) fs ?_ r0
      (by rw [hA])
    intro fs2 x rr _ hh
    exact baseDirStep_some_shape s fs2 x rr hh
  | none =>
    simp only [orElseS] at h
    dsimp only [walkSepS] at h
    refine firstSome_fst_some (walkProbeStep j s)
      (fun rr => ∃ dd f, rr = Res.serve dd f) (walkSep fs1) fs1 ?_ r h
    intro fs2 fr rr _ hh
    exact walkProbeStep_some_shape j s fs2 fr rr hh

/-- Under the C8 hypotheses the special mix block finds nothing. -/
theorem mixBlockS_none_of (fs : FS) (jobId : String)
    (h1 : ∀ f ∈ listdir fs uploadPath, (fileStem f == jobId) = false)
    (h2 : ∀ mf ∈ modelFolders,
      pExists fs ((sepPath ++ [mf, jobId]) ++ ["mixture.mp3"]) = false
      ∧ pExists fs ((sepPath ++ [mf, jobId]) ++ ["mix.wav"]) = false
      ∧ pExists fs ((sepPath ++ [mf, jobId]) ++ ["mix.flac"]) = false) :
    mixBlockS fs jobId "mix" = (none, fs) := by
  unfold mixBlockS
  rw [if_pos (by rfl : (("mix" : String) == "mix") = true)]
  dsimp only [listdirS]
  have hup : firstSome fs (listdir fs uploadPath) (uploadMixStep jobId)
      = (none, fs) := by
    apply firstSome_none _ (uploadMixStep_snd jobId)
    intro f hf
    unfold uploadMixStep
    rw [h1 f hf]
    rfl
  rw [hup]
  simp only [orElseS]
  apply firstSome_none _ (mixFolderStep_snd jobId)
  intro mf hmf
  unfold mixFolderStep
  dsimp only [existsS]
  rw [(h2 mf hmf).1]
  simp only [Bool.false_eq_true, if_false]
  unfold firstSome
  dsimp only [existsS]
  rw [show (sepPath ++ [mf, jobId]) ++ ["mix" ++ ".wav"]
      = (sepPath ++ [mf, jobId]) ++ ["mix.wav"] from rfl]
  rw [(h2 mf hmf).2.1]
  simp only [Bool.false_eq_true, if_false]
  unfold firstSome
  dsimp only [existsS]
  rw [show (sepPath ++ [mf, jobId]) ++ ["mix" ++ ".flac"]
      = (sepPath ++ [mf, jobId]) ++ ["mix.flac"] from rfl]
  rw [(h2 mf hmf).2.2]
  rfl

/-- C8: when no uploaded file matches the job id and no tool-produced
mixture file exists in the canonical model folders, the mix request
does not answer 404 from the special block: it falls through to
generic stem resolution with the name mix, and 404 arises exactly when
that generic resolution (canonical directories, then every walked
directory mentioning the job id, over the five probe extensions) finds
nothing. -/
theorem C8_mix_fallthrough (fs : FS) (jobId : String)
    (h1 : ∀ f ∈ listdir fs uploadPath, (fileStem f == jobId) = false)
    (h2 : ∀ mf ∈ modelFolders,
      pExists fs ((sepPath ++ [mf, jobId]) ++ ["mixture.mp3"]) = false
      ∧ pExists fs ((sepPath ++ [mf, jobId]) ++ ["mix.wav"]) = false
      ∧ pExists fs ((sepPath ++ [mf, jobId]) ++ ["mix.flac"]) = false) :
    mixBlockS fs jobId "mix" = (none, fs)
    ∧ (serveStemS fs jobId "mix").1
        = (match (genericBlockS fs jobId "mix").1 with
           | some r => r
           | none => Res.err 404 (stemNotFoundMsg jobId "mix"))
    ∧ ((genericBlockS fs jobId "mix").1 = none ↔
        (serveStemS fs jobId "mix").1
          = Res.err 404 (stemNotFoundMsg jobId "mix")) := by
  have hmix := mixBlockS_none_of fs jobId h1 h2
  have hserve : (serveStemS fs jobId "mix").1
      = (match (genericBlockS fs jobId "mix").1 with
         | some r => r
         | none => Res.err 404 (stemNotFoundMsg jobId "mix")) := by
    unfold serveStemS
    rw [show splitOnSlash "mix" = ["mix"] from rfl]
    dsimp only
    rw [show (["mix"].getLastD "mix") = "mix" from rfl,
      show (["mix"].headD "") = "mix" from rfl,
      show (["mix"].length) = 1 from rfl]
    rw [hmix]
    show (match
        orElseS (parentCaseS (if (1 > 1) then some "mix" else none) jobId "mix" fs)
          (fun fs => genericBlockS fs jobId "mix")
      with
      | (some r, fs) => (r, fs)
      | (none, fs) => (Res.err 404 (stemNotFoundMsg jobId "mix"), fs)).1 = _
    rw [show (if (1 > 1) then some "mix" else none) = (none : Option String)
      from by norm_num]
    show (match genericBlockS fs jobId "mix" with
      | (some r, fs) => (r, fs)
      | (none, fs) => (Res.err 404 (stemNotFoundMsg jobId "mix"), fs)).1 = _
    rcases hg : genericBlockS fs jobId "mix" with ⟨g, fs2⟩
    cases g <;> rfl
  refine ⟨hmix, hserve, ?_⟩
  rw [hserve]
  rcases hgv : (genericBlockS fs jobId "mix").1 with _ | r
  · simp
  · simp only
    constructor
    · intro h; simp at h
    · intro h
      exfalso
      rcases genericBlockS_some_serve fs jobId "mix" r hgv with ⟨dd, f, hr⟩
      rw [hr] at h
      simp at h

/-- Witness for C8 on an empty disk: nothing matches, the special
block finds nothing and the result is exactly the generic 404. -/
theorem C8_mix_fallthrough_witness :
    (genericBlockS [] "song9" "mix").1 = none
    ∧ (serveStemS [] "song9" "mix").1
        = Res.err 404 (stemNotFoundMsg "song9" "mix") :=
  ⟨rfl, (C8_mix_fallthrough [] "song9" (by decide) (by decide)).2.2.mp rfl⟩

/-! ### Claim C10: aiff uploads against the probe extensions -/

/-- C10 counterexample: add-stem accepts vocals.aiff into the song1
project, whose vocals.mp3 still exists; the returned URL then serves
the mp3 rather than answering 404, so the URL does not ALWAYS resolve
to a 404 error. -/
theorem C10_aiff_url_counterexample :
    allowedFile "vocals.aiff" = true
    ∧ (serveStemS (addStemS fsSong1 "song1" "vocals.aiff" "vocals").2
          "song1" "vocals").1
        = Res.serve ["separated", "htdemucs", "song1"] "vocals.mp3"
    ∧ ((serveStemS (addStemS fsSong1 "song1" "vocals.aiff" "vocals").2
          "song1" "vocals").1).isErr = false
    ∧ pIsFile (addStemS fsSong1 "song1" "vocals.aiff" "vocals").2
        ["separated", "htdemucs", "song1", "vocals.aiff"] = true :=
  ⟨rfl, rfl, rfl, rfl⟩

/-- C10 amended: the upload boundary accepts aiff and aif, but stem
resolution only probes mp3, wav, flac, m4a and ogg, so the saved aiff
file itself is never served: every generic probe answer carries one of
the five probe extensions, and when no file with a probed extension
matches the stem name the URL answers 404 even though the saved aiff
file exists on disk. -/
theorem C10_aiff_never_probed_amended :
    allowedFile "track.aiff" = true
    ∧ allowedFile "track.aif" = true
    ∧ stemExts.contains ".aiff" = false
    ∧ stemExts.contains ".aif" = false
    ∧ (∀ (fs : FS) (dir : Path) (s : String) r,
        (probeExtsS fs dir s).1 = some r →
          ∃ e, e ∈ stemExts ∧ r = Res.serve dir (s ++ e))
    ∧ (serveStemS (addStemS fsEmptySep "song2" "vocals.aiff" "vocals").2
          "song2" "vocals").1
        = Res.err 404 (stemNotFoundMsg "song2" "vocals")
    ∧ pIsFile (addStemS fsEmptySep "song2" "vocals.aiff" "vocals").2
        ["separated", "htdemucs", "song2", "vocals.aiff"] = true := by
  refine ⟨rfl, rfl, rfl, rfl, ?_, rfl, rfl⟩
  intro fs dir s r h
  exact probeExtsS_some_shape fs dir s r h

/-- Witness for the probe-shape part of the amended C10 at a concrete
resolved probe. -/
theorem C10_aiff_never_probed_amended_witness :
    ∃ e, e ∈ stemExts
      ∧ Res.serve ["separated", "htdemucs", "song1"] "vocals.mp3"
          = Res.serve ["separated", "htdemucs", "song1"] ("vocals" ++ e) :=
  C10_aiff_never_probed_amended.2.2.2.2.1 fsSong1
    ["separated", "htdemucs", "song1"] "vocals"
    (Res.serve ["separated", "htdemucs", "song1"] "vocals.mp3") rfl

/-! ### Claim C6: the drum frequency bands -/
theorem zipMask_replicate_true (z : Cx) :
    ∀ (row : List Cx) (n : ℕ), row.length ≤ n →
      List.zipWith (fun v b => if b then v else z) row (List.replicate n true)
        = row := by
  intro row
  induction row with
  | nil => intro n _; simp
  | cons a t ih =>
    intro n hn
    cases n with
    | zero => simp at hn
    | succ m =>
      simp only [List.replicate, List.zipWith_cons_cons, if_true]
      rw [ih m (by simpa using hn)]

theorem zipMask_replicate_false (z : Cx) :
    ∀ (row : List Cx) (n : ℕ), row.length ≤ n →
      List.zipWith (fun v b => if b then v else z) row (List.replicate n false)
        = row.map (fun _ => z) := by
  intro row
  induction row with
  | nil => intro n _; simp
  | cons a t ih =>
    intro n hn
    cases n with
    | zero => simp at hn
    | succ m =>
      simp only [List.replicate, List.zipWith_cons_cons, List.map_cons,
        Bool.false_eq_true, if_false]
      rw [ih m (by simpa using hn)]

/-- The tiled boolean product of the source equals the per-row band
filter, on rectangular grids. -/
theorem mulMask_tile_bandKeep (lo hi : ℚ) :
    ∀ (freqs : List ℚ) (g : Grid) (n : ℕ), (∀ row ∈ g, row.length = n) →
      mulMask g (tileMask (boolMaskOfRange lo hi freqs) n)
        = bandKeep lo hi freqs g := by
  intro freqs
  induction freqs with
  | nil =>
    intro g n _
    cases g <;> rfl
  | cons f ft ih =>
    intro g n hrect
    cases g with
    | nil => rfl
    | cons row gt =>
      unfold mulMask tileMask boolMaskOfRange bandKeep
      simp only [List.map_cons, List.zipWith_cons_cons]
      congr 1
      · by_cases hb : lo ≤ f ∧ f ≤ hi
        · rw [if_pos hb]
          have hd : (decide (lo ≤ f) && decide (f ≤ hi)) = true := by
            simp [hb.1, hb.2]
          rw [hd]
          exact zipMask_replicate_true _ row n (le_of_eq (hrect row (by simp)))
        · rw [if_neg hb]
          have hd : (decide (lo ≤ f) && decide (f ≤ hi)) = false := by
            by_cases h1 : lo ≤ f
            · by_cases h2 : f ≤ hi
              · exact absurd ⟨h1, h2⟩ hb
              · simp [h2]
            · simp [h1]
          rw [hd]
          exact zipMask_replicate_false _ row n (le_of_eq (hrect row (by simp)))
      · exact ih gt n (fun row2 hr => hrect row2 (by simp [hr]))

/-- Rows inside the band are kept whole (magnitude and phase), rows
outside it are zeroed. -/
theorem bandKeep_getD (lo hi : ℚ) :
    ∀ (freqs : List ℚ) (g : Grid) (i : ℕ), i < freqs.length → i < g.length →
      (bandKeep lo hi freqs g).getD i []
        = (if lo ≤ freqs.getD i 0 ∧ freqs.getD i 0 ≤ hi then g.getD i []
           else (g.getD i []).map (fun _ => ((0 : ℚ), (0 : ℚ)))) := by
  intro freqs
  induction freqs with
  | nil => intro g i h _; simp at h
  | cons f ft ih =>
    intro g i hf hg
    cases g with
    | nil => simp at hg
    | cons row gt =>
      cases i with
      | zero => simp [bandKeep]
      | succ k =>
        simp only [bandKeep, List.zipWith_cons_cons, List.getD_cons_succ]
        exact ih gt k (by simpa using hf) (by simpa using hg)

/-- C6: the drum refiner produces exactly four band signals by zeroing
STFT rows outside the fixed bands kick 20 to 200, snare 200 to 2000,
hihat 2000 to 8000 and cymbals 4000 to 20000 Hz (bands three and four
overlap, for instance at 5000 Hz), keeping each in-band bin whole (so
phase is preserved), inverting each band and peak-normalizing each of
the four signals independently. -/
theorem C6_drum_bands (L : Lib) (y : Sig)
    (hrect : ∀ row ∈ L.stft y, row.length = ((L.stft y).headD []).length) :
    drumsDSP L y
      = [("kick", normalizeSig (L.istft (bandKeep 20 200 L.fftFreqs (L.stft y)))),
         ("snare", normalizeSig (L.istft (bandKeep 200 2000 L.fftFreqs (L.stft y)))),
         ("hihat", normalizeSig (L.istft (bandKeep 2000 8000 L.fftFreqs (L.stft y)))),
         ("cymbals", normalizeSig (L.istft (bandKeep 4000 20000 L.fftFreqs (L.stft y))))]
    ∧ (drumsDSP L y).length = 4
    ∧ (∀ (lo hi : ℚ) (freqs : List ℚ) (g : Grid) (i : ℕ),
        i < freqs.length → i < g.length →
        (bandKeep lo hi freqs g).getD i []
          = (if lo ≤ freqs.getD i 0 ∧ freqs.getD i 0 ≤ hi then g.getD i []
             else (g.getD i []).map (fun _ => ((0 : ℚ), (0 : ℚ)))))
    ∧ ((2000 : ℚ) ≤ 5000 ∧ (5000 : ℚ) ≤ 8000)
    ∧ ((4000 : ℚ) ≤ 5000 ∧ (5000 : ℚ) ≤ 20000) := by
  refine ⟨?_, rfl, bandKeep_getD, by norm_num, by norm_num⟩
  unfold drumsDSP
  dsimp only
  rw [mulMask_tile_bandKeep 20 200 L.fftFreqs (L.stft y) _ hrect,
    mulMask_tile_bandKeep 200 2000 L.fftFreqs (L.stft y) _ hrect,
    mulMask_tile_bandKeep 2000 8000 L.fftFreqs (L.stft y) _ hrect,
    mulMask_tile_bandKeep 4000 20000 L.fftFreqs (L.stft y) _ hrect]

/-- Witness for C6 at the concrete library instance. -/
theorem C6_drum_bands_witness :
    drumsDSP toyLib [1, 1]
      = [("kick", normalizeSig (toyLib.istft
            (bandKeep 20 200 toyLib.fftFreqs (toyLib.stft [1, 1])))),
         ("snare", normalizeSig (toyLib.istft
            (bandKeep 200 2000 toyLib.fftFreqs (toyLib.stft [1, 1])))),
         ("hihat", normalizeSig (toyLib.istft
            (bandKeep 2000 8000 toyLib.fftFreqs (toyLib.stft [1, 1])))),
         ("cymbals", normalizeSig (toyLib.istft
            (bandKeep 4000 20000 toyLib.fftFreqs (toyLib.stft [1, 1]))))] :=
  (C6_drum_bands toyLib [1, 1] (by decide)).1

/-! ### Claim C1: resolution is deterministic and idempotent -/
/-- C1: with unchanged disk state, resolving twice yields identical
results: running serve_stem again on the state left by a first run
returns the very same response and state, and likewise for
load_project. -/
theorem C1_resolution_idempotent
    (fs : FS) (jobId stemPath : String) (fp : Path) :
    serveStemS (serveStemS fs jobId stemPath).2 jobId stemPath
      = serveStemS fs jobId stemPath
    ∧ loadProjectS (loadProjectS fs fp).2 fp = loadProjectS fs fp := by
  rw [serveStemS_snd fs jobId stemPath, loadProjectS_snd fs fp]
  exact ⟨rfl, rfl⟩

end DemucsApp
